import Mathlib

/-!
Verification of the frugalpromproxy metrics proxy (src/main.go) against its
specification.  The Go program parses Prometheus exposition text, tracks per
series how many consecutive scrapes returned an identical value, and
re-serializes only the series considered live.  We embed the parser, the
staleness tracker and the serializer shallowly: Go maps become association
lists (with insertion order standing in for Go's unspecified map iteration
order), float64 becomes an exact value type that keeps IEEE equality
behaviour for NaN and the infinities, and the regular expressions of main.go
become character-level matching functions with the same leftmost-first
semantics.
-/

namespace FPP

/-- An exact decimal number `m * 10 ^ e`, the value denoted by a numeric
token of the exposition format. -/
structure Dec where
  m : Int
  e : Int
deriving DecidableEq, Repr

/-- Powers of ten over the integers (kept first-order so that the kernel can
evaluate it). -/
def pow10 : ℕ → Int
  | 0 => 1
  | n + 1 => 10 * pow10 n

/-- Equality of the denoted rational numbers `a.m * 10 ^ a.e` and
`b.m * 10 ^ b.e`, decided by cross-multiplying with the nonnegative power of
ten that aligns the exponents. -/
def decEqVal (a b : Dec) : Bool :=
  if b.e ≤ a.e then decide (a.m * pow10 (a.e - b.e).toNat = b.m)
  else decide (a.m = b.m * pow10 (b.e - a.e).toNat)

/-- Model of Go float64 values as they occur in this program: the parser only
ever produces NaN, the two infinities, or an exactly represented decimal
number (modelled exactly, ignoring float64 rounding, which no claim here
depends on). -/
inductive GoFloat where
  | nan : GoFloat
  | posInf : GoFloat
  | negInf : GoFloat
  | fin : Dec → GoFloat
deriving DecidableEq, Repr

/-- IEEE-754 equality as used by Go's `!=` on float64: NaN compares unequal
to everything, including itself; infinities compare structurally and finite
values compare as the exact rationals they denote. -/
def goEq : GoFloat → GoFloat → Bool
  | .nan, _ => false
  | _, .nan => false
  | .posInf, .posInf => true
  | .negInf, .negInf => true
  | .fin a, .fin b => decEqVal a b
  | _, _ => false

/-- Go's `!=` on float64 (the comparison on line 153 of main.go). -/
def goNe (a b : GoFloat) : Bool := !(goEq a b)

/-- The MetricType enum of main.go; the zero value is `histogram`. -/
inductive MetricType where
  | histogram : MetricType
  | summary : MetricType
  | untyped : MetricType
  | counter : MetricType
  | gauge : MetricType
deriving DecidableEq, Repr

/-- The typeText table of main.go. -/
def typeText : MetricType → String
  | .histogram => "histogram"
  | .summary => "summary"
  | .untyped => "untyped"
  | .counter => "counter"
  | .gauge => "gauge"

/-- LabelSet of main.go: the value last parsed for a series together with its
consecutive-unchanged counter (int64 in Go, hence `Int`). -/
structure LabelSet where
  value : GoFloat
  unchangedCounter : Int
deriving DecidableEq, Repr

/-- MetricData of main.go: a metric family's declared type, help text and its
series keyed by verbatim label text.  The Go map becomes an association
list. -/
structure MetricData where
  commentType : MetricType
  commentHelp : String
  label : List (String × LabelSet)
deriving DecidableEq, Repr

/-- Go zero value of MetricData (missing map key): nil label map, empty help,
and MetricType zero value, which is histogram. -/
def emptyMetricData : MetricData := ⟨.histogram, "", []⟩

/-- Go zero value of LabelSet (missing map key): value 0.0, counter 0. -/
def zeroLabelSet : LabelSet := ⟨.fin ⟨0, 0⟩, 0⟩

/-- Association-list lookup, modelling Go map indexing (first match). -/
def alookup {α : Type} : List (String × α) → String → Option α
  | [], _ => none
  | p :: ps, k => if p.1 = k then some p.2 else alookup ps k

/-- Association-list insertion, modelling Go map assignment: replace the
existing entry for the key or append a new one. -/
def ainsert {α : Type} : List (String × α) → String → α → List (String × α)
  | [], k, v => [(k, v)]
  | p :: ps, k, v => if p.1 = k then (k, v) :: ps else p :: ainsert ps k v

/-- Reading `data[name]` in Go yields the zero value when absent. -/
def lookupMD (d : List (String × MetricData)) (k : String) : MetricData :=
  (alookup d k).getD emptyMetricData

/-- Reading `label[l]` in Go yields the zero value when absent. -/
def lookupLS (m : List (String × LabelSet)) (k : String) : LabelSet :=
  (alookup m k).getD zeroLabelSet

/-- The opening brace character, written by code point to keep brace
characters out of literals. -/
def lbrace : Char := Char.ofNat 123

/-- The closing brace character. -/
def rbrace : Char := Char.ofNat 125

/-- First character class of a metric name in the regexes of main.go:
`[a-zA-Z_:]`. -/
def isNameStart (c : Char) : Bool := c.isAlpha || c = '_' || c = ':'

/-- Subsequent character class of a metric name: `[a-zA-Z0-9_:]`. -/
def isNameChar (c : Char) : Bool := isNameStart c || c.isDigit

/-- Match `[a-zA-Z_:][a-zA-Z0-9_:]*` at the head of the input, maximal munch
(the regex is greedy and no following token is a name character). -/
def matchName : List Char → Option (List Char × List Char)
  | [] => none
  | c :: rest =>
    if isNameStart c then
      some (c :: rest.takeWhile isNameChar, rest.dropWhile isNameChar)
    else none

/-- Match the optional `(?:\x7b([^\x7d]*)\x7d)?` label block of linePattern.
If the next character is an opening brace the block must close (otherwise
the whole anchored line match fails, since a brace can never match the
following literal space); absent block captures the empty string, exactly as
`FindStringSubmatch` reports an unmatched group. -/
def matchBraceOpt (cs : List Char) : Option (List Char × List Char) :=
  match cs with
  | [] => some ([], [])
  | c :: rest =>
    if c = lbrace then
      let lab := rest.takeWhile (fun x => x ≠ rbrace)
      match rest.dropWhile (fun x => x ≠ rbrace) with
      | d :: rest2 => if d = rbrace then some (lab, rest2) else none
      | [] => none
    else some ([], cs)

/-- Match one-or-more digits, maximal munch. -/
def matchDigits1 (cs : List Char) : Option (List Char × List Char) :=
  if (cs.takeWhile Char.isDigit).isEmpty then none
  else some (cs.takeWhile Char.isDigit, cs.dropWhile Char.isDigit)

/-- Numeric value of a digit string. -/
def digitsToNat (ds : List Char) : ℕ :=
  ds.foldl (fun a c => 10 * a + (c.toNat - 48)) 0

/-- Match the optional fraction `(?:\.\d+)?`.  When a dot is present without
a following digit the group fails and is skipped (the leftover dot then
makes the anchored line fail, matching the regex). -/
def matchFrac (cs : List Char) : List Char × List Char :=
  match cs with
  | c :: r =>
    if c = '.' then
      match matchDigits1 r with
      | some (ds, r2) => (ds, r2)
      | none => ([], cs)
    else ([], cs)
  | [] => ([], [])

/-- Match the optional exponent `(?:e[+-]\d+)?`: lowercase e, mandatory sign,
one or more digits.  Returns the sign (true for negative) and digits when
matched. -/
def matchExp (cs : List Char) : Option (Bool × List Char) × List Char :=
  match cs with
  | c1 :: c2 :: r =>
    if c1 = 'e' then
      if c2 = '+' || c2 = '-' then
        match matchDigits1 r with
        | some (ds, r2) => ((some (c2 = '-', ds)), r2)
        | none => (none, cs)
      else (none, cs)
    else (none, cs)
  | _ => (none, cs)

/-- Exact numeric value of a matched number token: the digits before and
after the dot form the mantissa; the exponent is the written one shifted
down by the number of fraction digits.  float64 rounding is not modelled
(values stay exact); the one observable failure of strconv.ParseFloat on a
regex-matched token — the ErrRange overflow rejection that main.go line 85
checks — is modelled separately by `parseFloatOk`. -/
def buildDec (neg : Bool) (ip fp : List Char) (ex : Option (Bool × List Char)) : Dec :=
  let mag : Int := (digitsToNat (ip ++ fp) : Int)
  let written : Int :=
    match ex with
    | none => 0
    | some (eneg, ds) => if eneg then -(digitsToNat ds : Int) else (digitsToNat ds : Int)
  ⟨if neg then -mag else mag, written - (fp.length : Int)⟩

/-- Match the number alternative `[0-9]+(?:\.\d+)?(?:e[+-]\d+)?` (after the
optional minus has been consumed), returning the parsed value and the
unconsumed rest. -/
def matchNumber (neg : Bool) (cs1 : List Char) : Option (GoFloat × List Char) :=
  match matchDigits1 cs1 with
  | none => none
  | some (ip, cs2) =>
    let (fp, cs3) := matchFrac cs2
    let (ex, cs4) := matchExp cs3
    some (.fin (buildDec neg ip fp ex), cs4)

/-- The smallest magnitude that strconv.ParseFloat(·, 64) rounds to ±Inf,
reporting ErrRange: half an ulp above MaxFloat64 = 2^1024 − 2^971, i.e.
2^1024 − 2^970 (the halfway value itself rounds up to 2^1024 by
ties-to-even), written out as a literal so that every evaluator reduces
it. -/
def floatOverflowBound : ℕ := 179769313486231580793728971405303415079934132710037826936173778980444968292764750946649017977587207096330286416692887910946555547851940402630657488671505820681908902000708383676273854845817711531764475730270069855571366959622842914819860834936475292719074168444365510704342711559699508093042880177904174497792

/-- Whether the exact decimal `d` overflows float64, i.e. whether
strconv.ParseFloat would return ErrRange for a token denoting it: its
magnitude `|m|·10^e` is at least `floatOverflowBound`, decided by
cross-multiplying with the power of ten that clears the exponent. -/
def decOverflow (d : Dec) : Bool :=
  if 0 ≤ d.e then decide ((floatOverflowBound : Int) ≤ (d.m.natAbs : Int) * pow10 d.e.toNat)
  else decide ((floatOverflowBound : Int) * pow10 (-d.e).toNat ≤ (d.m.natAbs : Int))

/-- Whether strconv.ParseFloat succeeds (`err == nil`, the guard of main.go
line 85) on a regex-matched value token denoting this value: the special
values `±Inf` and `NaN` always parse, and a number token fails exactly when
its value overflows float64 (underflow rounds without error). -/
def parseFloatOk : GoFloat → Bool
  | .fin d => !(decOverflow d)
  | _ => true

/-- Match the first two alternatives of the value alternation, `[+-]Inf` and
`NaN` (their leading characters are pairwise distinct and distinct from
those of the number alternative, so the alternation order is immaterial). -/
def matchSpecial (cs : List Char) : Option (GoFloat × List Char) :=
  match cs with
  | c1 :: c2 :: c3 :: rest3 =>
    if c1 = 'N' ∧ c2 = 'a' ∧ c3 = 'N' then some (.nan, rest3)
    else
      match rest3 with
      | c4 :: rest4 =>
        if c1 = '+' ∧ c2 = 'I' ∧ c3 = 'n' ∧ c4 = 'f' then some (.posInf, rest4)
        else if c1 = '-' ∧ c2 = 'I' ∧ c3 = 'n' ∧ c4 = 'f' then some (.negInf, rest4)
        else none
      | [] => none
  | _ => none

/-- Match the value alternation of linePattern,
`[+-]Inf|NaN|-?[0-9]+(?:\.\d+)?(?:e[+-]\d+)?`, leftmost-first, returning the
parsed value and the unconsumed rest. -/
def matchValue (cs : List Char) : Option (GoFloat × List Char) :=
  match matchSpecial cs with
  | some r => some r
  | none =>
    match cs with
    | c :: r => if c = '-' then matchNumber true r else matchNumber false cs
    | [] => none

/-- Whole-string match of the optional trailing timestamp `-?\d+`. -/
def tsOk (cs : List Char) : Bool :=
  let cs1 : List Char :=
    match cs with
    | '-' :: r => r
    | _ => cs
  !cs1.isEmpty && cs1.all Char.isDigit

/-- Model of `linePattern.FindStringSubmatch` (main.go line 81): the
anchored sample-line regex.  Returns the metric name, the verbatim label
text (empty when no label block) and the exact value the value field
denotes; the ignored timestamp is validated but dropped.  The subsequent
strconv.ParseFloat error check of main.go line 85 — which fails with
ErrRange when the value overflows float64 — is modelled by the
`parseFloatOk` guard applied in `processLine`, mirroring the code's
structure. -/
def lineMatch (s : String) : Option (String × String × GoFloat) :=
  match matchName s.data with
  | none => none
  | some (nm, r1) =>
    match matchBraceOpt r1 with
    | none => none
    | some (lab, r2) =>
      match r2 with
      | [] => none
      | c2 :: r3 =>
        if c2 = ' ' then
          match matchValue r3 with
          | none => none
          | some (v, r4) =>
            match r4 with
            | [] => some (String.mk nm, String.mk lab, v)
            | c4 :: r5 =>
              if c4 = ' ' then
                if tsOk r5 then some (String.mk nm, String.mk lab, v) else none
              else none
        else none

/-- The value grammar of linePattern applied to a whole field: a value
string is regex-accepted exactly when the value alternation consumes all of
it. -/
def matchValueFull (vs : String) : Option GoFloat :=
  match matchValue vs.data with
  | some (v, []) => some v
  | _ => none

/-- The per-field view of the code's value handling: the field must be
consumed by the value alternation of the regex AND strconv.ParseFloat must
succeed on it (no float64 overflow), exactly the two conditions main.go
lines 81-85 impose before a series is touched. -/
def parseValueString (vs : String) : Option GoFloat :=
  match matchValueFull vs with
  | some v => if parseFloatOk v then some v else none
  | none => none

/-- Strip a literal prefix from a character list. -/
def dropPrefixChars : List Char → List Char → Option (List Char)
  | [], cs => some cs
  | _ :: _, [] => none
  | p :: ps, c :: cs => if c = p then dropPrefixChars ps cs else none

/-- Match a metric name with the optional nonempty brace block
`[a-zA-Z_:][a-zA-Z0-9_:]*(?:\x7b[^\x7d]+\x7d)?` used by typePattern and
helpPattern; the braces are part of the captured name. -/
def matchNameWithBraces (cs : List Char) : Option (List Char × List Char) :=
  match matchName cs with
  | none => none
  | some (nm, rest) =>
    match rest with
    | [] => some (nm, [])
    | c :: rest1 =>
      if c = lbrace then
        let lab := rest1.takeWhile (fun x => x ≠ rbrace)
        if lab.isEmpty then none
        else
          match rest1.dropWhile (fun x => x ≠ rbrace) with
          | d :: rest2 =>
            if d = rbrace then some (nm ++ lbrace :: (lab ++ [rbrace]), rest2) else none
          | [] => none
      else some (nm, rest)

/-- The five Prometheus type keywords, matched against the whole remainder of
the line (the regex alternation is followed by the `$` anchor). -/
def keywordType (cs : List Char) : Option MetricType :=
  if cs = "counter".data then some .counter
  else if cs = "gauge".data then some .gauge
  else if cs = "histogram".data then some .histogram
  else if cs = "summary".data then some .summary
  else if cs = "untyped".data then some .untyped
  else none

/-- Model of `typePattern.FindStringSubmatch` plus the switch of main.go
lines 100-118: an anchored `# TYPE <name> <kind>` line. -/
def typeMatch (s : String) : Option (String × MetricType) :=
  match dropPrefixChars "# TYPE ".data s.data with
  | none => none
  | some r =>
    match matchNameWithBraces r with
    | none => none
    | some (nm, r1) =>
      match r1 with
      | [] => none
      | c1 :: r2 =>
        if c1 = ' ' then (keywordType r2).map (fun t => (String.mk nm, t)) else none

/-- Model of `helpPattern.FindStringSubmatch`: an anchored
`# HELP <name> <text>` line, the help text being the verbatim remainder. -/
def helpMatch (s : String) : Option (String × String) :=
  match dropPrefixChars "# HELP ".data s.data with
  | none => none
  | some r =>
    match matchNameWithBraces r with
    | none => none
    | some (nm, r1) =>
      match r1 with
      | [] => none
      | c1 :: r2 =>
        if c1 = ' ' then some (String.mk nm, String.mk r2) else none

/-- Decimal digit character for `n % 10`. -/
def natDigitChar (n : ℕ) : Char := Char.ofNat (48 + n % 10)

/-- Decimal rendering of a natural number, structurally recursive on a fuel
argument so that the kernel can evaluate it. -/
def natToCharsAux : ℕ → ℕ → List Char
  | 0, _ => []
  | fuel + 1, n =>
    if n < 10 then [natDigitChar n]
    else natToCharsAux fuel (n / 10) ++ [natDigitChar n]

/-- Decimal rendering of a natural number. -/
def natToChars (n : ℕ) : List Char := natToCharsAux (n + 1) n

/-- Decimal rendering of an integer. -/
def intToChars (z : ℤ) : List Char :=
  if z < 0 then '-' :: natToChars z.natAbs else natToChars z.natAbs

/-- Textual rendering of a value, standing in for fmt's `%v` formatting of a
float64 (strconv's shortest round-trip form).  The shortest-float64 digit
algorithm is not reproduced — integral values print identically, other
rationals are printed exactly in numerator/denominator form — and no claim
proved below depends on the digits chosen, only on the rendering containing
no brace character. -/
def formatValue : GoFloat → String
  | .nan => "NaN"
  | .posInf => "+Inf"
  | .negInf => "-Inf"
  | .fin d =>
    if d.e = 0 then String.mk (intToChars d.m)
    else String.mk (intToChars d.m ++ 'e' :: intToChars d.e)

/-- The staleThreshold constant of main.go (line 24). -/
def staleThreshold : Int := 240

/-- The startStale constant of main.go (line 25). -/
def startStale : Bool := true

/-- Counter assigned to a freshly created record (main.go lines 139-147):
the threshold under the start-stale policy, -1 otherwise. -/
def initCounter : Int := if startStale then staleThreshold else -1

/-- One line of the scan loop of main.go (lines 79-127): the line text is
run against all three patterns in order (they are mutually exclusive) and
the per-scrape `data` map is updated accordingly.  A sample line whose value
parses (regex match and ParseFloat success, main.go lines 81-85) stores the
value under the family's label key, preserving the (zero) counter; a value
that overflows float64 makes ParseFloat fail and the line is skipped; a
TYPE line sets the family's declared type; a HELP line sets its help
text. -/
def processLine (d : List (String × MetricData)) (s : String) : List (String × MetricData) :=
  let d1 : List (String × MetricData) :=
    match lineMatch s with
    | some (name, lab, v) =>
      if parseFloatOk v then
        let md := lookupMD d name
        let ls := lookupLS md.label lab
        ainsert d name { md with label := ainsert md.label lab { ls with value := v } }
      else d
    | none => d
  let d2 : List (String × MetricData) :=
    match typeMatch s with
    | some (name, t) => ainsert d1 name { lookupMD d1 name with commentType := t }
    | none => d1
  match helpMatch s with
  | some (name, h) => ainsert d2 name { lookupMD d2 name with commentHelp := h }
  | none => d2

/-- The whole scan loop: fold the parser over the body's lines (the body is
presented as the list of lines produced by bufio.Scanner). -/
def parseBody (body : List String) : List (String × MetricData) :=
  body.foldl processLine []

/-- The counter transition of main.go lines 152-167, applied to the stored
record `x` given the newly scraped value: a differing value (IEEE `!=`)
resets the counter to 0, an equal value increments it.  Note the stored
value itself is never replaced. -/
def stepLS (x : LabelSet) (newValue : GoFloat) : LabelSet :=
  if goNe x.value newValue then { x with unchangedCounter := 0 }
  else { x with unchangedCounter := x.unchangedCounter + 1 }

/-- One iteration of the comparison loop of main.go lines 152-167: the
stored record of the family is read back, its entry for the scraped label is
stepped against the scraped value, and the record is written back. -/
def updStep (name : String) (s : List (String × MetricData)) (p : String × LabelSet) :
    List (String × MetricData) :=
  let y := lookupMD s name
  let x := lookupLS y.label p.1
  ainsert s name { y with label := ainsert y.label p.1 (stepLS x p.2.value) }

/-- The per-family body of the update loop of main.go lines 129-168.  If the
family name has no record, the freshly parsed family (whose label map, in
Go, is aliased into the store) is inserted with every counter set to
`initCounter`; then, for every label present in the scrape, the stored
record is stepped by comparing its value with the scraped one.  The Go map
aliasing on creation is reproduced by the copy: the inserted record carries
the scraped values, so the subsequent comparison sees equal values exactly
as the aliased maps do. -/
def updateFamily (st : List (String × MetricData)) (name : String) (content : MetricData) :
    List (String × MetricData) :=
  let st1 : List (String × MetricData) :=
    if (alookup st name).isNone then
      ainsert st name
        { content with
          label := content.label.map (fun p => (p.1, { p.2 with unchangedCounter := initCounter })) }
    else st
  content.label.foldl (updStep name) st1

/-- The full update loop over every family of the parsed scrape. -/
def updateAll (st : List (String × MetricData)) (data : List (String × MetricData)) :
    List (String × MetricData) :=
  data.foldl (fun s p => updateFamily s p.1 p.2) st

/-- One output sample line (main.go lines 184-188, without the trailing
newline added by Sprintln): `name\x7blabel\x7d value`, or `name value` when
the label text is empty. -/
def sampleLine (name lab : String) (v : GoFloat) : String :=
  if lab ≠ "" then name ++ "\x7b" ++ lab ++ "\x7d " ++ formatValue v
  else name ++ " " ++ formatValue v

/-- The liveness test of main.go line 182: a series is emitted when its
stored counter is at most the threshold. -/
def isActive (st : List (String × MetricData)) (name lab : String) : Bool :=
  (lookupLS (lookupMD st name).label lab).unchangedCounter ≤ staleThreshold

/-- The serialization of one family (main.go lines 171-197), as the list of
lines it contributes (each line is emitted followed by a newline):
histogram and summary families are skipped entirely; otherwise every label
whose stored counter is at most the threshold yields a sample line, and when
at least one label is active the HELP and TYPE preamble is prepended. -/
def serializeFamilyLines (st : List (String × MetricData)) (name : String)
    (content : MetricData) : List String :=
  if content.commentType = .histogram then []
  else if content.commentType = .summary then []
  else
    let samples : List String :=
      content.label.filterMap
        (fun p => if isActive st name p.1 then some (sampleLine name p.1 p.2.value) else none)
    if content.label.any (fun p => isActive st name p.1) then
      ("# HELP " ++ name ++ " " ++ content.commentHelp) ::
        ("# TYPE " ++ name ++ " " ++ typeText content.commentType) :: samples
    else samples

/-- The output accumulation loop of main.go lines 170-198, over the parsed
families in order (Go iterates its map in unspecified order; the list order
determinizes it). -/
def renderLines (st : List (String × MetricData)) (data : List (String × MetricData)) :
    List String :=
  data.foldl (fun acc p => acc ++ serializeFamilyLines st p.1 p.2) []

/-- Result of one successful handler invocation: the mutated tracker store
and the response body's lines. -/
structure HandlerResult where
  state : List (String × MetricData)
  lines : List String
deriving DecidableEq, Repr

/-- The handler of main.go applied to a successfully fetched body (presented
as its lines): parse, update the tracker, serialize against the updated
store. -/
def handler (st : List (String × MetricData)) (body : List String) : HandlerResult :=
  let data := parseBody body
  let st' := updateAll st data
  ⟨st', renderLines st' data⟩

/-- The response body text: every emitted line is written by fmt.Sprintln,
i.e. followed by a newline. -/
def handlerOutput (st : List (String × MetricData)) (body : List String) : String :=
  String.join ((handler st body).lines.map (fun l => l ++ "\x0a"))

/-- N-fold iteration of the handler against a fixed upstream body, starting
from the empty store: the tracker state after N identical scrapes. -/
def scrapeIter (body : List String) : ℕ → List (String × MetricData)
  | 0 => []
  | n + 1 => (handler (scrapeIter body n) body).state

/-- N-fold iteration of the per-family update against a fixed parsed family
content, from an arbitrary starting store: the effect on that family of N
consecutive scrapes each delivering the same content for it (families are
updated independently, so this is the family's view of the scrape
sequence). -/
def updateIter (name : String) (content : MetricData)
    (st0 : List (String × MetricData)) : ℕ → List (String × MetricData)
  | 0 => st0
  | n + 1 => updateFamily (updateIter name content st0 n) name content

/-- Outcome of the upstream fetch performed at the top of the handler
(main.go lines 62-69): success with a body, a transport error from http.Get,
or a failure reading the response body. -/
inductive FetchResult where
  | ok : List String → FetchResult
  | fetchError : FetchResult
  | readError : FetchResult
deriving DecidableEq, Repr

/-- Observable outcome of one handler invocation: either the process is
terminated (log.Fatalln calls os.Exit) or a response is produced from the
updated store. -/
inductive HandlerOutcome where
  | processExit : HandlerOutcome
  | respond : List (String × MetricData) → List String → HandlerOutcome
deriving DecidableEq, Repr

/-- The handler of main.go lines 61-200 including its error paths: both the
http.Get error (line 63-65) and the body read error (line 67-69) are handled
with log.Fatalln, which logs and then terminates the whole process. -/
def handlerTop (st : List (String × MetricData)) : FetchResult → HandlerOutcome
  | .fetchError => .processExit
  | .readError => .processExit
  | .ok body => .respond (handler st body).state (handler st body).lines

/-- Distinctness of the keys of an association list: the invariant every Go
map satisfies by construction. -/
def keysNodup {α : Type} (d : List (String × α)) : Prop :=
  (d.map Prod.fst).Nodup

/-- Lookup after inserting the same key finds the inserted value. -/
theorem alookup_ainsert_self {α : Type} (d : List (String × α)) (k : String) (v : α) :
    alookup (ainsert d k v) k = some v := by
  induction d with
  | nil => simp [ainsert, alookup]
  | cons p ps ih =>
    by_cases h : p.1 = k
    · simp [ainsert, h, alookup]
    · simp [ainsert, h, alookup, ih]

/-- Lookup of a different key is unaffected by an insertion. -/
theorem alookup_ainsert_ne {α : Type} (d : List (String × α)) (k k' : String) (v : α)
    (h : k' ≠ k) : alookup (ainsert d k v) k' = alookup d k' := by
  induction d with
  | nil =>
    have h' : ¬(k = k') := fun hk => h hk.symm
    simp [ainsert, alookup, h']
  | cons p ps ih =>
    by_cases hp : p.1 = k
    · have h1 : ¬(k = k') := fun hk => h hk.symm
      have h2 : ¬(p.1 = k') := by rw [hp]; exact h1
      simp [ainsert, hp, alookup, h1, h2]
    · by_cases hq : p.1 = k'
      · simp [ainsert, hp, alookup, hq, h]
      · simp [ainsert, hp, alookup, hq, ih]

/-- Lookup commutes with the counter-initializing map applied at record
creation. -/
theorem alookup_initMap (d : List (String × LabelSet)) (k : String) :
    alookup (d.map (fun p => (p.1, { p.2 with unchangedCounter := initCounter }))) k
      = (alookup d k).map (fun x => { x with unchangedCounter := initCounter }) := by
  induction d with
  | nil => simp [alookup]
  | cons p ps ih =>
    by_cases h : p.1 = k
    · simp [alookup, h]
    · simp [alookup, h, ih]

/-- On an association list with distinct keys, membership determines the
lookup result. -/
theorem alookup_eq_some_of_mem {α : Type} {d : List (String × α)} {k : String} {v : α}
    (hn : keysNodup d) (hm : (k, v) ∈ d) : alookup d k = some v := by
  induction d with
  | nil => cases hm
  | cons p ps ih =>
    rcases List.mem_cons.mp hm with h | h
    · rw [← h]; simp [alookup]
    · have hk : k ∈ ps.map Prod.fst := List.mem_map.mpr ⟨(k, v), h, rfl⟩
      have hp : p.1 ≠ k := by
        intro he
        exact (List.nodup_cons.mp hn).1 (he ▸ hk)
      have hn' : keysNodup ps := (List.nodup_cons.mp hn).2
      simp [alookup, hp, ih hn' h]

/-- A key is absent from the lookup exactly when it is not among the keys. -/
theorem alookup_eq_none_iff {α : Type} (d : List (String × α)) (k : String) :
    alookup d k = none ↔ k ∉ d.map Prod.fst := by
  induction d with
  | nil => simp [alookup]
  | cons p ps ih =>
    by_cases h : p.1 = k
    · simp [alookup, h]
    · have h' : ¬k = p.1 := fun he => h he.symm
      simp [alookup, h, ih, h']

/-- Every decimal value equals itself. -/
theorem decEqVal_self (a : Dec) : decEqVal a a = true := by
  simp [decEqVal, pow10]

/-- Go's `!=` on any non-NaN float64 value compared with itself is false. -/
theorem goNe_self {v : GoFloat} (h : v ≠ .nan) : goNe v v = false := by
  cases v <;> simp_all [goNe, goEq, decEqVal_self]

/-- Go's `!=` on NaN compared with itself is true. -/
theorem goNe_nan : goNe .nan .nan = true := rfl

/-- A changed value resets the counter and keeps the stored value. -/
theorem stepLS_changed (x : LabelSet) (v : GoFloat) (h : goNe x.value v = true) :
    stepLS x v = ⟨x.value, 0⟩ := by
  simp [stepLS, h]

/-- An unchanged value increments the counter and keeps the stored value. -/
theorem stepLS_unchanged (x : LabelSet) (v : GoFloat) (h : goNe x.value v = false) :
    stepLS x v = ⟨x.value, x.unchangedCounter + 1⟩ := by
  simp [stepLS, h]

/-- A comparison-loop iteration leaves every other family alone. -/
theorem alookup_updStep_ne (name : String) (s : List (String × MetricData))
    (p : String × LabelSet) (n' : String) (h : n' ≠ name) :
    alookup (updStep name s p) n' = alookup s n' := by
  simp [updStep, alookup_ainsert_ne _ _ _ _ h]

/-- The whole comparison loop leaves every other family alone. -/
theorem updFold_alookup_ne (name : String) (labels : List (String × LabelSet))
    (s : List (String × MetricData)) (n' : String) (h : n' ≠ name) :
    alookup (labels.foldl (updStep name) s) n' = alookup s n' := by
  induction labels generalizing s with
  | nil => rfl
  | cons p ps ih => rw [List.foldl_cons, ih, alookup_updStep_ne name s p n' h]

/-- Reading back the family record right after a comparison-loop
iteration. -/
theorem lookupMD_updStep (name : String) (s : List (String × MetricData))
    (p : String × LabelSet) :
    lookupMD (updStep name s p) name =
      { lookupMD s name with
        label := ainsert (lookupMD s name).label p.1
          (stepLS (lookupLS (lookupMD s name).label p.1) p.2.value) } := by
  simp [updStep, lookupMD, alookup_ainsert_self]

/-- The comparison loop never changes a family's stored declared type. -/
theorem updFold_commentType (name : String) (labels : List (String × LabelSet))
    (s : List (String × MetricData)) :
    (lookupMD (labels.foldl (updStep name) s) name).commentType
      = (lookupMD s name).commentType := by
  induction labels generalizing s with
  | nil => rfl
  | cons p ps ih => rw [List.foldl_cons, ih, lookupMD_updStep]

/-- A label absent from the scraped labels keeps its stored record across
the comparison loop. -/
theorem updFold_label_notmem (name : String) (labels : List (String × LabelSet))
    (s : List (String × MetricData)) (l : String) (h : l ∉ labels.map Prod.fst) :
    lookupLS (lookupMD (labels.foldl (updStep name) s) name).label l
      = lookupLS (lookupMD s name).label l := by
  induction labels generalizing s with
  | nil => rfl
  | cons p ps ih =>
    have h1 : l ≠ p.1 := by
      intro he
      exact h (by simp [he])
    have h2 : l ∉ ps.map Prod.fst := by
      intro hm
      exact h (by simp [hm])
    rw [List.foldl_cons, ih _ h2, lookupMD_updStep]
    simp [lookupLS, alookup_ainsert_ne _ _ _ _ h1]

/-- The comparison loop steps the stored record of every scraped label
exactly once, against that label's scraped value. -/
theorem updFold_label_mem (name : String) (labels : List (String × LabelSet))
    (s : List (String × MetricData)) (l : String) (ls : LabelSet)
    (hn : keysNodup labels) (hm : (l, ls) ∈ labels) :
    lookupLS (lookupMD (labels.foldl (updStep name) s) name).label l
      = stepLS (lookupLS (lookupMD s name).label l) ls.value := by
  induction labels generalizing s with
  | nil => cases hm
  | cons p ps ih =>
    rcases List.mem_cons.mp hm with h | h
    · have hnot : l ∉ ps.map Prod.fst := by
        have := (List.nodup_cons.mp hn).1
        rw [← h] at this
        exact this
      rw [List.foldl_cons, updFold_label_notmem name ps _ l hnot, lookupMD_updStep, ← h]
      simp [lookupLS, alookup_ainsert_self]
    · have hne : l ≠ p.1 := by
        intro he
        have hk : l ∈ ps.map Prod.fst := List.mem_map.mpr ⟨(l, ls), h, rfl⟩
        exact (List.nodup_cons.mp hn).1 (he ▸ hk)
      rw [List.foldl_cons, ih _ (List.nodup_cons.mp hn).2 h, lookupMD_updStep]
      simp [lookupLS, alookup_ainsert_ne _ _ _ _ hne]

/-- The per-family update leaves every other family alone. -/
theorem alookup_updateFamily_ne (st : List (String × MetricData)) (name : String)
    (content : MetricData) (n' : String) (h : n' ≠ name) :
    alookup (updateFamily st name content) n' = alookup st n' := by
  simp only [updateFamily]
  rw [updFold_alookup_ne _ _ _ _ h]
  split
  · rw [alookup_ainsert_ne _ _ _ _ h]
  · rfl

/-- Updating a family with no prior record: every scraped label's record is
created at `initCounter` carrying the scraped value, then stepped against
that same value. -/
theorem updateFamily_new (st : List (String × MetricData)) (name : String)
    (content : MetricData) (l : String) (ls : LabelSet)
    (hnone : alookup st name = none) (hn : keysNodup content.label)
    (hm : (l, ls) ∈ content.label) :
    lookupLS (lookupMD (updateFamily st name content) name).label l
      = stepLS ⟨ls.value, initCounter⟩ ls.value := by
  simp only [updateFamily, hnone, Option.isNone_none, if_pos]
  rw [updFold_label_mem name content.label _ l ls hn hm]
  have h1 : lookupMD (ainsert st name
      { content with
        label := content.label.map (fun p => (p.1, { p.2 with unchangedCounter := initCounter })) })
      name =
      { content with
        label := content.label.map (fun p => (p.1, { p.2 with unchangedCounter := initCounter })) } := by
    simp [lookupMD, alookup_ainsert_self]
  rw [h1]
  simp [lookupLS, alookup_initMap, alookup_eq_some_of_mem hn hm]

/-- Updating a family that already has a record: every scraped label's
stored record is stepped against the scraped value (in particular, a label
new to the family is stepped from the zero record). -/
theorem updateFamily_existing (st : List (String × MetricData)) (name : String)
    (content : MetricData) (l : String) (ls : LabelSet) (md : MetricData)
    (hsome : alookup st name = some md) (hn : keysNodup content.label)
    (hm : (l, ls) ∈ content.label) :
    lookupLS (lookupMD (updateFamily st name content) name).label l
      = stepLS (lookupLS md.label l) ls.value := by
  simp only [updateFamily, hsome, Option.isNone_some, Bool.false_eq_true, if_false]
  rw [updFold_label_mem name content.label st l ls hn hm]
  simp [lookupMD, hsome]

/-- Families of unsupported declared type serialize to nothing, whatever the
tracker state says about their series. -/
theorem serialize_unsupported (st : List (String × MetricData)) (name : String)
    (content : MetricData)
    (h : content.commentType = .histogram ∨ content.commentType = .summary) :
    serializeFamilyLines st name content = [] := by
  rcases h with h | h <;> simp [serializeFamilyLines, h]

/-- A family none of whose scraped series is active serializes to
nothing. -/
theorem serialize_all_stale (st : List (String × MetricData)) (name : String)
    (content : MetricData)
    (hall : ∀ p ∈ content.label, isActive st name p.1 = false) :
    serializeFamilyLines st name content = [] := by
  have hany : content.label.any (fun p => isActive st name p.1) = false := by
    apply List.any_eq_false.mpr
    intro p hp
    simp [hall p hp]
  by_cases h1 : content.commentType = .histogram
  · simp [serializeFamilyLines, h1]
  by_cases h2 : content.commentType = .summary
  · simp [serializeFamilyLines, h1, h2]
  simp only [serializeFamilyLines, if_neg h1, if_neg h2, hany]
  simp only [Bool.false_eq_true, if_false]
  apply List.filterMap_eq_nil_iff.mpr
  intro p hp
  simp [hall p hp]

/-- C8: a family whose declared type is histogram or summary is fully
excluded from the serialized output on every scrape, regardless of the
staleness classification of its series (the statement holds for every
tracker state, so in particular when its series' counters are at or below
the threshold). -/
theorem C8_unsupported_type_excluded (st : List (String × MetricData)) (name : String)
    (content : MetricData)
    (h : content.commentType = .histogram ∨ content.commentType = .summary) :
    serializeFamilyLines st name content = [] :=
  serialize_unsupported st name content h

/-- Witness for C8: a histogram family with a series whose counter is 0
(hence LIVE by the counter test) still contributes no output lines. -/
theorem C8_witness :
    serializeFamilyLines [("h", ⟨.histogram, "", [("", ⟨.fin ⟨1, 0⟩, 0⟩)]⟩)] "h"
      ⟨.histogram, "", [("", ⟨.fin ⟨1, 0⟩, 0⟩)]⟩ = [] :=
  C8_unsupported_type_excluded _ _ _ (Or.inl rfl)

/-- C7 (amended): for every family of a scrape, the HELP line and the TYPE
line are emitted if and only if the family's declared type is neither
histogram nor summary and at least one of its series is active (stored
counter at most the threshold); and a family all of whose series are stale
contributes zero output lines.  The original claim's iff fails for
histogram/summary families with an active series, see the
counterexample. -/
theorem C7_family_gating (st : List (String × MetricData)) (name : String)
    (content : MetricData) :
    (("# HELP " ++ name ++ " " ++ content.commentHelp) ∈ serializeFamilyLines st name content ↔
      (content.commentType ≠ .histogram ∧ content.commentType ≠ .summary) ∧
        ∃ p ∈ content.label, isActive st name p.1 = true)
    ∧ (("# TYPE " ++ name ++ " " ++ typeText content.commentType)
          ∈ serializeFamilyLines st name content ↔
      (content.commentType ≠ .histogram ∧ content.commentType ≠ .summary) ∧
        ∃ p ∈ content.label, isActive st name p.1 = true)
    ∧ ((∀ p ∈ content.label, isActive st name p.1 = false) →
        serializeFamilyLines st name content = []) := by
  refine ⟨?_, ?_, serialize_all_stale st name content⟩ <;>
  · by_cases h1 : content.commentType = .histogram
    · simp [serializeFamilyLines, h1]
    by_cases h2 : content.commentType = .summary
    · simp [serializeFamilyLines, h1, h2]
    by_cases h3 : content.label.any (fun p => isActive st name p.1) = true
    · constructor
      · intro _
        exact ⟨⟨h1, h2⟩, List.any_eq_true.mp h3⟩
      · intro _
        simp [serializeFamilyLines, h1, h2, h3]
    · have hall : ∀ p ∈ content.label, isActive st name p.1 = false := by
        intro p hp
        have h3' : content.label.any (fun p => isActive st name p.1) = false := by
          revert h3
          cases content.label.any (fun p => isActive st name p.1) <;> simp
        exact by simpa using List.any_eq_false.mp h3' p hp
      rw [serialize_all_stale st name content hall]
      constructor
      · intro hmem
        cases hmem
      · rintro ⟨-, p, hp, hact⟩
        rw [hall p hp] at hact
        cases hact

/-- Counterexample to C7 as stated: two scrapes of a histogram-declared
family whose series value changes between them.  After the second scrape the
series' counter is 0, i.e. it is classified LIVE for that cycle, yet the
family contributes zero output lines — in particular its HELP/TYPE preamble
is not emitted — so "preamble emitted iff at least one series is LIVE" fails
in the right-to-left direction. -/
theorem C7_counterexample :
    ((lookupLS (lookupMD (handler (handler [] ["# TYPE foo histogram", "foo 1"]).state
          ["# TYPE foo histogram", "foo 2"]).state "foo").label "").unchangedCounter = 0)
    ∧ (handler (handler [] ["# TYPE foo histogram", "foo 1"]).state
        ["# TYPE foo histogram", "foo 2"]).lines = [] := by
  decide

/-- Witness for C7's amended statement: a gauge family with one active
series emits its preamble, and an all-stale family emits nothing. -/
theorem C7_witness :
    (("# HELP " ++ "g" ++ " " ++ "d") ∈ serializeFamilyLines
        [("g", ⟨.gauge, "d", [("", ⟨.fin ⟨1, 0⟩, 0⟩)]⟩)] "g"
        ⟨.gauge, "d", [("", ⟨.fin ⟨1, 0⟩, 0⟩)]⟩)
    ∧ serializeFamilyLines [("s", ⟨.gauge, "", [("", ⟨.fin ⟨1, 0⟩, 241⟩)]⟩)] "s"
        ⟨.gauge, "", [("", ⟨.fin ⟨1, 0⟩, 241⟩)]⟩ = [] :=
  ⟨((C7_family_gating _ "g" _).1).mpr ⟨⟨by decide, by decide⟩, ⟨("", ⟨.fin ⟨1, 0⟩, 0⟩), by decide, by decide⟩⟩,
   (C7_family_gating _ "s" _).2.2 (by decide)⟩

/-- C1 is contradicted by the code: scraping value 1 and then value 2 for
series foo does reset the counter to 0 and classify the series LIVE, but the
change branch (main.go lines 153-158) writes back only the counter — the
scraped value is never stored, so the record's last-known value stays 1
instead of becoming 2.  Consequently a third scrape of the (now unchanged)
value 2 still compares against 1 and resets the counter to 0 again, instead
of incrementing it: a series that changed once and then froze is reported
LIVE forever, contradicting the program's stated purpose. -/
theorem C1_new_value_never_stored :
    ((lookupLS (lookupMD (handler (handler [] ["foo 1"]).state ["foo 2"]).state "foo").label
        "").value = .fin ⟨1, 0⟩)
    ∧ ((lookupLS (lookupMD (handler (handler [] ["foo 1"]).state ["foo 2"]).state "foo").label
        "").unchangedCounter = 0)
    ∧ ((lookupLS (lookupMD (handler (handler (handler [] ["foo 1"]).state ["foo 2"]).state
        ["foo 2"]).state "foo").label "").value = .fin ⟨1, 0⟩)
    ∧ ((lookupLS (lookupMD (handler (handler (handler [] ["foo 1"]).state ["foo 2"]).state
        ["foo 2"]).state "foo").label "").unchangedCounter = 0) := by
  decide

/-- Counterexample to C2 as stated: the family foo is already tracked (from
a first scrape of its unlabeled series) when the fresh series with label
text `b` first appears.  The claim requires the new series' record to be
initialized with counter = threshold and its first value suppressed;
instead the record ends the scrape with counter 0 and the sample line for
that series is emitted. -/
theorem C2_counterexample :
    ((lookupLS (lookupMD (handler (handler [] ["# TYPE foo gauge", "foo 1"]).state
        ["# TYPE foo gauge", "foo 1", "foo\x7bb\x7d 2"]).state "foo").label
        "b").unchangedCounter = 0)
    ∧ sampleLine "foo" "b" (.fin ⟨2, 0⟩) ∈
        (handler (handler [] ["# TYPE foo gauge", "foo 1"]).state
          ["# TYPE foo gauge", "foo 1", "foo\x7bb\x7d 2"]).lines := by
  decide

/-- C2 (amended): record creation is keyed by family name, not by series.
When the family name has no record, every series of that scrape is created
at counter = threshold and — because the creation aliases the scraped
values, so the comparison sees equal values and increments — ends the
scrape at threshold + 1, suppressed (provided its value is not NaN, which
IEEE-compares unequal to itself and would reset the counter).  A series new
to an already-tracked family is instead stepped from the zero record
(value 0, counter 0) and ends the scrape at counter 0 or 1, hence active:
its first-ever value is NOT suppressed. -/
theorem C2_per_family_creation (st : List (String × MetricData)) (name : String)
    (content : MetricData) (l : String) (ls : LabelSet)
    (hn : keysNodup content.label) (hm : (l, ls) ∈ content.label) :
    (alookup st name = none → (∀ p ∈ content.label, p.2.value ≠ .nan) →
      lookupLS (lookupMD (updateFamily st name content) name).label l
          = ⟨ls.value, staleThreshold + 1⟩
      ∧ serializeFamilyLines (updateFamily st name content) name content = [])
    ∧ (∀ md, alookup st name = some md → alookup md.label l = none →
        lookupLS (lookupMD (updateFamily st name content) name).label l
          = stepLS zeroLabelSet ls.value
        ∧ isActive (updateFamily st name content) name l = true) := by
  constructor
  · intro hnone hnan
    have hmain : ∀ q ∈ content.label,
        lookupLS (lookupMD (updateFamily st name content) name).label q.1
          = ⟨q.2.value, staleThreshold + 1⟩ := by
      intro q hq
      rw [updateFamily_new st name content q.1 q.2 hnone hn (by exact hq),
        stepLS_unchanged ⟨q.2.value, initCounter⟩ q.2.value (goNe_self (hnan q hq))]
      simp [initCounter, startStale]
    refine ⟨hmain (l, ls) hm, ?_⟩
    apply serialize_all_stale
    intro p hp
    rw [isActive, hmain p hp]
    simp [staleThreshold]
  · intro md hsome habsent
    have hrec : lookupLS (lookupMD (updateFamily st name content) name).label l
        = stepLS zeroLabelSet ls.value := by
      rw [updateFamily_existing st name content l ls md hsome hn hm]
      simp [lookupLS, habsent]
    refine ⟨hrec, ?_⟩
    rw [isActive, hrec, stepLS]
    split <;> simp [staleThreshold, zeroLabelSet]

/-- Witness for C2's amended statement: creating the family foo from
nothing leaves its sole series at counter 241 with no output, while the
series `b` newly joining the already-tracked family foo ends at the stepped
zero record and is active. -/
theorem C2_witness :
    (lookupLS (lookupMD (updateFamily [] "foo" ⟨.gauge, "", [("", ⟨.fin ⟨1, 0⟩, 0⟩)]⟩) "foo").label ""
        = ⟨.fin ⟨1, 0⟩, staleThreshold + 1⟩)
    ∧ serializeFamilyLines (updateFamily [] "foo" ⟨.gauge, "", [("", ⟨.fin ⟨1, 0⟩, 0⟩)]⟩) "foo"
        ⟨.gauge, "", [("", ⟨.fin ⟨1, 0⟩, 0⟩)]⟩ = []
    ∧ (lookupLS (lookupMD (updateFamily [("foo", ⟨.gauge, "", [("", ⟨.fin ⟨1, 0⟩, 241⟩)]⟩)] "foo"
          ⟨.gauge, "", [("b", ⟨.fin ⟨2, 0⟩, 0⟩)]⟩) "foo").label "b"
        = stepLS zeroLabelSet (.fin ⟨2, 0⟩))
    ∧ isActive (updateFamily [("foo", ⟨.gauge, "", [("", ⟨.fin ⟨1, 0⟩, 241⟩)]⟩)] "foo"
        ⟨.gauge, "", [("b", ⟨.fin ⟨2, 0⟩, 0⟩)]⟩) "foo" "b" = true := by
  have hnew := (C2_per_family_creation [] "foo" ⟨.gauge, "", [("", ⟨.fin ⟨1, 0⟩, 0⟩)]⟩ ""
    ⟨.fin ⟨1, 0⟩, 0⟩ (by unfold keysNodup; decide) (by decide)).1 rfl (by decide)
  have hold := (C2_per_family_creation [("foo", ⟨.gauge, "", [("", ⟨.fin ⟨1, 0⟩, 241⟩)]⟩)] "foo"
    ⟨.gauge, "", [("b", ⟨.fin ⟨2, 0⟩, 0⟩)]⟩ "b" ⟨.fin ⟨2, 0⟩, 0⟩ (by unfold keysNodup; decide)
    (by decide)).2 ⟨.gauge, "", [("", ⟨.fin ⟨1, 0⟩, 241⟩)]⟩ rfl rfl
  exact ⟨hnew.1, hnew.2, hold.1, hold.2⟩

/-- One scrape cycle against the fixed body `# TYPE foo gauge` / `foo 5`
from a store holding series foo at value 5 with counter c: the counter
advances to c + 1 (the value is unchanged), and the family is emitted
exactly when c + 1 is at most the threshold. -/
theorem gaugeStep (c : Int) :
    handler [("foo", ⟨.gauge, "", [("", ⟨.fin ⟨5, 0⟩, c⟩)]⟩)] ["# TYPE foo gauge", "foo 5"]
      = ⟨[("foo", ⟨.gauge, "", [("", ⟨.fin ⟨5, 0⟩, c + 1⟩)]⟩)],
          if c + 1 ≤ staleThreshold then
            ["# HELP foo ", "# TYPE foo gauge", sampleLine "foo" "" (.fin ⟨5, 0⟩)] else []⟩ := by
  have hparse : parseBody ["# TYPE foo gauge", "foo 5"]
      = [("foo", ⟨.gauge, "", [("", ⟨.fin ⟨5, 0⟩, 0⟩)]⟩)] := by decide
  have htt : "# TYPE foo " ++ typeText MetricType.gauge = "# TYPE foo gauge" := by decide
  by_cases hc : c + 1 ≤ staleThreshold <;>
    simp [handler, hparse, updateAll, updateFamily, alookup, updStep, lookupMD, lookupLS,
      ainsert, stepLS, goNe, goEq, decEqVal, pow10, buildDec, digitsToNat,
      renderLines, serializeFamilyLines, isActive, hc, htt]

/-- A non-NaN float compares IEEE-equal to itself. -/
theorem goEq_self (x : GoFloat) (h : x ≠ .nan) : goEq x x = true := by
  cases x with
  | nan => exact absurd rfl h
  | posInf => rfl
  | negInf => rfl
  | fin a => simp [goEq, decEqVal, pow10]

/-- Stepping a record against a scraped value equal to the stored one (and
not NaN) increments the counter and keeps the value. -/
theorem stepLS_same (v : GoFloat) (c : Int) (h : v ≠ .nan) :
    stepLS ⟨v, c⟩ v = ⟨v, c + 1⟩ := by
  simp [stepLS, goNe, goEq_self v h]

/-- The comparison loop never removes the family's record. -/
theorem updFold_isSome (name : String) (labels : List (String × LabelSet))
    (s : List (String × MetricData)) (h : (alookup s name).isSome = true) :
    (alookup (labels.foldl (updStep name) s) name).isSome = true := by
  induction labels generalizing s with
  | nil => exact h
  | cons p ps ih =>
    exact ih _ (by simp [updStep, alookup_ainsert_self])

/-- After an update the family always has a record: either it existed
before, or the creation branch inserted one. -/
theorem alookup_updateFamily_isSome (st : List (String × MetricData)) (name : String)
    (content : MetricData) :
    (alookup (updateFamily st name content) name).isSome = true := by
  rcases halo : alookup st name with - | md
  · simp only [updateFamily, halo, Option.isNone_none, if_pos]
    apply updFold_isSome
    simp [alookup_ainsert_self]
  · simp only [updateFamily, halo, Option.isNone_some, Bool.false_eq_true, if_false]
    apply updFold_isSome
    simp [halo]

/-- Invariant of the iterated update for a family first observed under the
start-stale policy: every series of the scraped content whose value is not
NaN sits at counter `staleThreshold + N + 1` immediately after the
`N + 1`-st observation.  Creation aliases the scraped values, so the
same-cycle comparison already increments the just-initialized counter, and
every later identical scrape increments it again. -/
theorem updateIter_counter (name : String) (content : MetricData)
    (st0 : List (String × MetricData))
    (hnone : alookup st0 name = none) (hn : keysNodup content.label) :
    ∀ N : ℕ, ∀ l ls, (l, ls) ∈ content.label → ls.value ≠ .nan →
      lookupLS (lookupMD (updateIter name content st0 (N + 1)) name).label l
        = ⟨ls.value, staleThreshold + (N : ℤ) + 1⟩ := by
  intro N
  induction N with
  | zero =>
    intro l ls hm hnan
    show lookupLS (lookupMD (updateFamily st0 name content) name).label l = _
    rw [updateFamily_new st0 name content l ls hnone hn hm, stepLS_same _ _ hnan]
    simp [initCounter, startStale]
  | succ n ih =>
    intro l ls hm hnan
    have hsome : (alookup (updateIter name content st0 (n + 1)) name).isSome = true := by
      show (alookup (updateFamily (updateIter name content st0 n) name content) name).isSome
        = true
      exact alookup_updateFamily_isSome _ _ _
    obtain ⟨md, hmd⟩ := Option.isSome_iff_exists.mp hsome
    show lookupLS (lookupMD (updateFamily (updateIter name content st0 (n + 1)) name content)
      name).label l = _
    rw [updateFamily_existing _ name content l ls md hmd hn hm]
    have hmdl : lookupLS md.label l = ⟨ls.value, staleThreshold + (n : ℤ) + 1⟩ := by
      have hrec := ih l ls hm hnan
      simpa [lookupMD, hmd] using hrec
    rw [hmdl, stepLS_same _ _ hnan]
    congr 1

/-- The end-to-end pipeline on the fixed body `# TYPE foo gauge` / `foo 5`:
after N + 1 identical scrapes from the empty store the sole series sits at
counter threshold + N + 1, and every scrape's response is empty. -/
theorem scrape_foo5_iter (N : ℕ) :
    scrapeIter ["# TYPE foo gauge", "foo 5"] (N + 1)
      = [("foo", ⟨.gauge, "", [("", ⟨.fin ⟨5, 0⟩, staleThreshold + (N : ℤ) + 1⟩)]⟩)]
    ∧ (handler (scrapeIter ["# TYPE foo gauge", "foo 5"] N) ["# TYPE foo gauge", "foo 5"]).lines
      = [] := by
  induction N with
  | zero => exact ⟨by decide, by decide⟩
  | succ n ih =>
    obtain ⟨h1, -⟩ := ih
    have hcond : ¬(staleThreshold + (n : ℤ) + 1 + 1 ≤ staleThreshold) := by
      simp only [staleThreshold]
      omega
    constructor
    · show (handler (scrapeIter ["# TYPE foo gauge", "foo 5"] (n + 1))
        ["# TYPE foo gauge", "foo 5"]).state = _
      rw [h1, gaugeStep]
      have hint : staleThreshold + (n : ℤ) + 1 + 1 = staleThreshold + ((n : ℤ) + 1) + 1 := by
        ring
      simp only [hint]
      push_cast
      rfl
    · rw [h1, gaugeStep]
      simp only [if_neg hcond]

/-- Counterexample to C4 as stated: take N = 1 (a single first observation
of series foo).  The claim says the counter then equals N - 1 = 0; under the
code's start-stale initialization the counter is threshold + 1 = 241, and
the series is already STALE on that first cycle. -/
theorem C4_counterexample :
    ((lookupLS (lookupMD (scrapeIter ["# TYPE foo gauge", "foo 5"] 1) "foo").label
        "").unchangedCounter = 241)
    ∧ ¬((lookupLS (lookupMD (scrapeIter ["# TYPE foo gauge", "foo 5"] 1) "foo").label
        "").unchangedCounter = 0) := by
  decide

/-- C4 (amended): for every family name, scraped content, series of that
content with a non-NaN value, and prior store not yet tracking the family,
after N + 1 consecutive identical observations (the first of which creates
the record under the start-stale policy) the series' counter equals
threshold + N + 1 — not N as the claim's N - 1 arithmetic (with its N-th
observation) would give — so the counter exceeds the threshold from the
first observation onward and the series is STALE (suppressed) on every
cycle; when every series of the content is non-NaN the whole family
serializes to no output at all.  The last two conjuncts run the full
handler pipeline on a concrete such body for the same N. -/
theorem C4_start_stale_counter (name : String) (content : MetricData)
    (l : String) (ls : LabelSet) (st0 : List (String × MetricData)) (N : ℕ)
    (hnone : alookup st0 name = none) (hn : keysNodup content.label)
    (hm : (l, ls) ∈ content.label) (hnan : ls.value ≠ .nan) :
    lookupLS (lookupMD (updateIter name content st0 (N + 1)) name).label l
      = ⟨ls.value, staleThreshold + (N : ℤ) + 1⟩
    ∧ isActive (updateIter name content st0 (N + 1)) name l = false
    ∧ ((∀ p ∈ content.label, p.2.value ≠ GoFloat.nan) →
        serializeFamilyLines (updateIter name content st0 (N + 1)) name content = [])
    ∧ scrapeIter ["# TYPE foo gauge", "foo 5"] (N + 1)
      = [("foo", ⟨.gauge, "", [("", ⟨.fin ⟨5, 0⟩, staleThreshold + (N : ℤ) + 1⟩)]⟩)]
    ∧ (handler (scrapeIter ["# TYPE foo gauge", "foo 5"] N) ["# TYPE foo gauge", "foo 5"]).lines
      = [] := by
  have hrec := updateIter_counter name content st0 hnone hn N l ls hm hnan
  have hact : isActive (updateIter name content st0 (N + 1)) name l = false := by
    simp only [isActive, hrec, decide_eq_false_iff_not, not_le, staleThreshold]
    omega
  have hser : (∀ p ∈ content.label, p.2.value ≠ GoFloat.nan) →
      serializeFamilyLines (updateIter name content st0 (N + 1)) name content = [] := by
    intro hall
    apply serialize_all_stale
    intro p hp
    have hrp := updateIter_counter name content st0 hnone hn N p.1 p.2 hp (hall p hp)
    simp only [isActive, hrp, decide_eq_false_iff_not, not_le, staleThreshold]
    omega
  exact ⟨hrec, hact, hser, (scrape_foo5_iter N).1, (scrape_foo5_iter N).2⟩

/-- Witness for C4's amended statement at N = 2: family foo first observed
(the store previously tracked only bar) with the single series `a="x"` at
the non-NaN value 5; after 3 identical observations the counter is 243, the
series is stale, the family emits nothing, and the concrete pipeline
conjuncts hold. -/
theorem C4_witness :
    lookupLS (lookupMD (updateIter "foo" ⟨.gauge, "h", [("a=\"x\"", ⟨.fin ⟨5, 0⟩, 0⟩)]⟩
        [("bar", emptyMetricData)] (2 + 1)) "foo").label "a=\"x\""
      = ⟨.fin ⟨5, 0⟩, staleThreshold + ((2 : ℕ) : ℤ) + 1⟩
    ∧ isActive (updateIter "foo" ⟨.gauge, "h", [("a=\"x\"", ⟨.fin ⟨5, 0⟩, 0⟩)]⟩
        [("bar", emptyMetricData)] (2 + 1)) "foo" "a=\"x\"" = false
    ∧ serializeFamilyLines (updateIter "foo" ⟨.gauge, "h", [("a=\"x\"", ⟨.fin ⟨5, 0⟩, 0⟩)]⟩
        [("bar", emptyMetricData)] (2 + 1)) "foo"
        ⟨.gauge, "h", [("a=\"x\"", ⟨.fin ⟨5, 0⟩, 0⟩)]⟩ = []
    ∧ scrapeIter ["# TYPE foo gauge", "foo 5"] (2 + 1)
      = [("foo", ⟨.gauge, "", [("", ⟨.fin ⟨5, 0⟩, staleThreshold + ((2 : ℕ) : ℤ) + 1⟩)]⟩)]
    ∧ (handler (scrapeIter ["# TYPE foo gauge", "foo 5"] 2) ["# TYPE foo gauge", "foo 5"]).lines
      = [] := by
  have h := C4_start_stale_counter "foo" ⟨.gauge, "h", [("a=\"x\"", ⟨.fin ⟨5, 0⟩, 0⟩)]⟩ "a=\"x\""
    ⟨.fin ⟨5, 0⟩, 0⟩ [("bar", emptyMetricData)] 2 (by decide) (by unfold keysNodup; decide)
    (by decide) (by decide)
  exact ⟨h.1, h.2.1, h.2.2.1 (by decide), h.2.2.2.1, h.2.2.2.2⟩

/-- C3 is contradicted by the code: both transport-error paths of the
handler (http.Get failing, and the body read failing) are handled with
log.Fatalln (main.go lines 64 and 68), which logs and terminates the whole
process.  The claim — and the specification — require such errors to fail
only the current request and leave the process running; instead the outcome
is process termination, here evaluated at a store already holding tracked
state. -/
theorem C3_transport_error_kills_process :
    handlerTop [("foo", ⟨.gauge, "", [("", ⟨.fin ⟨1, 0⟩, 0⟩)]⟩)] .fetchError = .processExit
    ∧ handlerTop [("foo", ⟨.gauge, "", [("", ⟨.fin ⟨1, 0⟩, 0⟩)]⟩)] .readError = .processExit :=
  ⟨rfl, rfl⟩

/-- Reading back the record just written for the same key. -/
theorem lookupMD_ainsert_self (d : List (String × MetricData)) (k : String) (v : MetricData) :
    lookupMD (ainsert d k v) k = v := by
  simp [lookupMD, alookup_ainsert_self]

/-- Reading a different key is unaffected by the write. -/
theorem lookupMD_ainsert_ne (d : List (String × MetricData)) (k : String) (v : MetricData)
    (k' : String) (h : k' ≠ k) : lookupMD (ainsert d k v) k' = lookupMD d k' := by
  simp [lookupMD, alookup_ainsert_ne _ _ _ _ h]

/-- Writing back a record with only its label map changed does not change
any family's declared type. -/
theorem commentType_ainsert_label (d : List (String × MetricData)) (k : String)
    (X : List (String × LabelSet)) (name : String) :
    (lookupMD (ainsert d k { lookupMD d k with label := X }) name).commentType
      = (lookupMD d name).commentType := by
  by_cases hk : name = k
  · subst hk
    rw [lookupMD_ainsert_self]
  · rw [lookupMD_ainsert_ne _ _ _ _ hk]

/-- Writing back a record with only its help text changed does not change
any family's declared type. -/
theorem commentType_ainsert_help (d : List (String × MetricData)) (k : String)
    (h : String) (name : String) :
    (lookupMD (ainsert d k { lookupMD d k with commentHelp := h }) name).commentType
      = (lookupMD d name).commentType := by
  by_cases hk : name = k
  · subst hk
    rw [lookupMD_ainsert_self]
  · rw [lookupMD_ainsert_ne _ _ _ _ hk]

/-- A line carrying no TYPE declaration for the given family leaves that
family's parsed declared type unchanged. -/
theorem processLine_commentType (d : List (String × MetricData)) (s : String) (name : String)
    (h : (typeMatch s).all (fun p => p.1 != name) = true) :
    (lookupMD (processLine d s) name).commentType = (lookupMD d name).commentType := by
  rcases hl : lineMatch s with - | ⟨n1, lab, v⟩ <;>
    rcases ht : typeMatch s with - | ⟨n2, t2⟩ <;>
      rcases hh : helpMatch s with - | ⟨n3, h3⟩ <;>
        simp only [processLine, hl, ht, hh]
  · exact commentType_ainsert_help d n3 h3 name
  · rw [ht] at h
    have hne : n2 ≠ name := by simpa using h
    rw [lookupMD_ainsert_ne _ _ _ _ (Ne.symm hne)]
  · rw [ht] at h
    have hne : n2 ≠ name := by simpa using h
    rw [commentType_ainsert_help, lookupMD_ainsert_ne _ _ _ _ (Ne.symm hne)]
  · split
    · exact commentType_ainsert_label d n1 _ name
    · rfl
  · rw [commentType_ainsert_help]
    split
    · exact commentType_ainsert_label d n1 _ name
    · rfl
  · rw [ht] at h
    have hne : n2 ≠ name := by simpa using h
    rw [lookupMD_ainsert_ne _ _ _ _ (Ne.symm hne)]
    split
    · exact commentType_ainsert_label d n1 _ name
    · rfl
  · rw [ht] at h
    have hne : n2 ≠ name := by simpa using h
    rw [commentType_ainsert_help, lookupMD_ainsert_ne _ _ _ _ (Ne.symm hne)]
    split
    · exact commentType_ainsert_label d n1 _ name
    · rfl

/-- Folding the scan loop over lines none of which declares a TYPE for the
given family preserves that family's parsed declared type. -/
theorem parseFold_commentType (body : List String) (name : String)
    (h : ∀ s ∈ body, (typeMatch s).all (fun p => p.1 != name) = true) :
    ∀ d, (lookupMD (body.foldl processLine d) name).commentType
      = (lookupMD d name).commentType := by
  induction body with
  | nil => intro d; rfl
  | cons s rest ih =>
    intro d
    rw [List.foldl_cons, ih (fun x hx => h x (List.mem_cons_of_mem s hx)),
      processLine_commentType d s name (h s (List.mem_cons_self s rest))]

/-- C9: when a scrape's input contains no `# TYPE` line for a family (in
particular when it only contains sample lines for it), the parsed family's
declared type is the enum zero value, histogram — and therefore the family
is never emitted, whatever the tracker state says about its series (so in
particular even when they are classified LIVE). -/
theorem C9_missing_type_defaults_histogram (body : List String) (name : String)
    (h : ∀ s ∈ body, (typeMatch s).all (fun p => p.1 != name) = true) :
    (lookupMD (parseBody body) name).commentType = .histogram
    ∧ ∀ st, serializeFamilyLines st name (lookupMD (parseBody body) name) = [] := by
  have h1 : (lookupMD (parseBody body) name).commentType = .histogram := by
    rw [parseBody, parseFold_commentType body name h []]
    rfl
  exact ⟨h1, fun st => serialize_unsupported st name _ (Or.inl h1)⟩

/-- Witness for C9: the body consisting of the single sample line `foo 1`
parses family foo at type histogram, and the family emits nothing even
against a store in which its series' counter is 0 (LIVE). -/
theorem C9_witness :
    (lookupMD (parseBody ["foo 1"]) "foo").commentType = .histogram
    ∧ serializeFamilyLines [("foo", ⟨.histogram, "", [("", ⟨.fin ⟨1, 0⟩, 0⟩)]⟩)] "foo"
        (lookupMD (parseBody ["foo 1"]) "foo") = [] := by
  have hc := C9_missing_type_defaults_histogram ["foo 1"] "foo" (by decide)
  exact ⟨hc.1, hc.2 [("foo", ⟨.histogram, "", [("", ⟨.fin ⟨1, 0⟩, 0⟩)]⟩)]⟩

/-- Splitting at a character that occurs in neither prefix is
unambiguous. -/
theorem append_unique_char_inj (c : Char) :
    ∀ (xs xs' ys ys' : List Char), c ∉ xs → c ∉ xs' →
      xs ++ c :: ys = xs' ++ c :: ys' → xs = xs' ∧ ys = ys' := by
  intro xs
  induction xs with
  | nil =>
    intro xs' ys ys' _ h2 he
    cases xs' with
    | nil => simpa using he
    | cons a t =>
      simp only [List.nil_append, List.cons_append, List.cons.injEq] at he
      exact absurd (he.1 ▸ List.mem_cons_self a t) h2
  | cons a t ih =>
    intro xs' ys ys' h1 h2 he
    cases xs' with
    | nil =>
      simp only [List.nil_append, List.cons_append, List.cons.injEq] at he
      exact absurd (he.1.symm ▸ List.mem_cons_self a t) h1
    | cons b t' =>
      simp only [List.cons_append, List.cons.injEq] at he
      have h1' : c ∉ t := fun hx => h1 (List.mem_cons_of_mem a hx)
      have h2' : c ∉ t' := fun hx => h2 (List.mem_cons_of_mem b hx)
      obtain ⟨hx, hy⟩ := ih t' ys ys' h1' h2' he.2
      exact ⟨by rw [he.1, hx], hy⟩

/-- Character spelling of a labeled sample line. -/
theorem sampleLine_data (name lab : String) (v : GoFloat) (h : lab ≠ "") :
    (sampleLine name lab v).data
      = name.data ++ lbrace :: (lab.data ++ rbrace :: ' ' :: (formatValue v).data) := by
  unfold sampleLine
  rw [if_pos h, String.data_append, String.data_append, String.data_append, String.data_append]
  have hb : ("\x7b" : String).data = [lbrace] := by decide
  have hb2 : ("\x7d " : String).data = [rbrace, ' '] := by decide
  rw [hb, hb2]
  simp [List.append_assoc]

/-- Character spelling of an unlabeled sample line. -/
theorem sampleLine_data_empty (name : String) (v : GoFloat) :
    (sampleLine name "" v).data = name.data ++ ' ' :: (formatValue v).data := by
  have hs : (" " : String).data = [' '] := by decide
  simp [sampleLine, String.data_append, hs]

/-- Two sample lines of the same family are equal only when they belong to
the same label text, provided neither label text contains a closing brace
(which the parser guarantees, since the label capture excludes it). -/
theorem sampleLine_label_inj (name l l' : String) (v v' : GoFloat)
    (hl : rbrace ∉ l.data) (hl' : rbrace ∉ l'.data)
    (he : sampleLine name l' v' = sampleLine name l v) : l' = l := by
  by_cases h1 : l = "" <;> by_cases h2 : l' = ""
  · rw [h1, h2]
  · exfalso
    have hd := congrArg String.data he
    rw [sampleLine_data name l' v' h2, h1, sampleLine_data_empty] at hd
    have h3 := List.append_cancel_left hd
    simp only [List.cons.injEq] at h3
    exact absurd h3.1 (by decide)
  · exfalso
    have hd := congrArg String.data he
    rw [sampleLine_data name l v h1, h2, sampleLine_data_empty] at hd
    have h3 := List.append_cancel_left hd
    simp only [List.cons.injEq] at h3
    exact absurd h3.1 (by decide)
  · have hd := congrArg String.data he
    rw [sampleLine_data name l' v' h2, sampleLine_data name l v h1] at hd
    have h3 := List.append_cancel_left hd
    simp only [List.cons.injEq, true_and] at h3
    exact String.ext (append_unique_char_inj rbrace l'.data l.data _ _ hl' hl h3).1

/-- A sample line never coincides with a line starting with `#`, because a
metric name starts with a name character. -/
theorem ne_sample_of_hash (name l : String) (v : GoFloat) (t : String)
    (c : Char) (hd : name.data.head? = some c) (hc : isNameStart c = true)
    (ht : t.data.head? = some '#') : sampleLine name l v ≠ t := by
  intro heq
  have h1 : (sampleLine name l v).data.head? = some c := by
    by_cases hl : l = ""
    · rw [hl, sampleLine_data_empty, List.head?_append, hd]
      rfl
    · rw [sampleLine_data name l v hl, List.head?_append, hd]
      rfl
  rw [heq, ht] at h1
  have h2 : c = '#' := (Option.some_inj.mp h1).symm
  rw [h2] at hc
  exact absurd hc (by decide)

/-- On an association list with distinct keys a key determines its value. -/
theorem mem_unique_of_keysNodup {α : Type} {d : List (String × α)} {k : String} {a b : α}
    (hn : keysNodup d) (ha : (k, a) ∈ d) (hb : (k, b) ∈ d) : a = b := by
  have h1 := alookup_eq_some_of_mem hn ha
  have h2 := alookup_eq_some_of_mem hn hb
  rw [h1] at h2
  exact Option.some_inj.mp h2

/-- Counterexample to C5 as stated: two scrapes of a summary-declared
family whose series value changes between them.  The series is present in
the second scrape with post-update counter 0 ≤ 240, yet it is not emitted
(the whole output is empty), so "emitted iff counter ≤ threshold" fails. -/
theorem C5_counterexample :
    ((lookupLS (lookupMD (handler (handler [] ["# TYPE foo summary", "foo 1"]).state
        ["# TYPE foo summary", "foo 2"]).state "foo").label "").unchangedCounter = 0)
    ∧ (handler (handler [] ["# TYPE foo summary", "foo 1"]).state
        ["# TYPE foo summary", "foo 2"]).lines = [] := by
  decide

/-- C5 (amended): an unchanged value increments the tracked series' counter
by exactly 1; and a series present in the scrape is emitted if and only if
its stored counter is at most the threshold AND its family's declared type
is neither histogram nor summary.  The original claim omitted the type
condition; the hypotheses on the name's first character and on the label
texts are facts the parser guarantees for every scraped family. -/
theorem C5_increment_and_emission (st : List (String × MetricData)) (name : String)
    (content : MetricData) (l : String) (ls : LabelSet)
    (hn : keysNodup content.label) (hm : (l, ls) ∈ content.label) :
    (∀ md prev, alookup st name = some md → alookup md.label l = some prev →
      goEq prev.value ls.value = true →
      (lookupLS (lookupMD (updateFamily st name content) name).label l).unchangedCounter
        = prev.unchangedCounter + 1)
    ∧ (∀ st' : List (String × MetricData), ∀ c : Char, ∀ cs : List Char,
        name.data = c :: cs → isNameStart c = true →
        (∀ p ∈ content.label, rbrace ∉ p.1.data) →
        (sampleLine name l ls.value ∈ serializeFamilyLines st' name content ↔
          isActive st' name l = true ∧
            content.commentType ≠ .histogram ∧ content.commentType ≠ .summary)) := by
  constructor
  · intro md prev hsome hprev heq
    rw [updateFamily_existing st name content l ls md hsome hn hm]
    have hx : lookupLS md.label l = prev := by simp [lookupLS, hprev]
    rw [hx, stepLS_unchanged prev ls.value (by simp [goNe, heq])]
  · intro st' c cs hd hc hlab
    have hhead : name.data.head? = some c := by rw [hd]; rfl
    by_cases h1 : content.commentType = .histogram
    · rw [serialize_unsupported st' name content (Or.inl h1)]
      simp [h1]
    by_cases h2 : content.commentType = .summary
    · rw [serialize_unsupported st' name content (Or.inr h2)]
      simp [h2]
    constructor
    · intro hmem
      have hsample : sampleLine name l ls.value ∈ content.label.filterMap
          (fun p => if isActive st' name p.1 then some (sampleLine name p.1 p.2.value)
            else none) := by
        have hhelp : sampleLine name l ls.value ≠ "# HELP " ++ name ++ " " ++ content.commentHelp := by
          apply ne_sample_of_hash name l ls.value _ c hhead hc
          rw [String.data_append, String.data_append, String.data_append, List.head?_append,
            List.head?_append, List.head?_append]
          rfl
        have htype : sampleLine name l ls.value
            ≠ "# TYPE " ++ name ++ " " ++ typeText content.commentType := by
          apply ne_sample_of_hash name l ls.value _ c hhead hc
          rw [String.data_append, String.data_append, String.data_append, List.head?_append,
            List.head?_append, List.head?_append]
          rfl
        rw [serializeFamilyLines, if_neg h1, if_neg h2] at hmem
        by_cases hany : content.label.any (fun p => isActive st' name p.1) = true
        · simp only [hany, if_true] at hmem
          rcases List.mem_cons.mp hmem with he | hmem2
          · exact absurd he hhelp
          rcases List.mem_cons.mp hmem2 with he | hmem3
          · exact absurd he htype
          exact hmem3
        · simp only [Bool.not_eq_true] at hany
          simp only [hany, Bool.false_eq_true, if_false] at hmem
          exact hmem
      obtain ⟨p, hp, hif⟩ := List.mem_filterMap.mp hsample
      by_cases hact : isActive st' name p.1 = true
      · rw [if_pos hact] at hif
        have hpl : p.1 = l :=
          sampleLine_label_inj name l p.1 ls.value p.2.value (hlab (l, ls) hm) (hlab p hp)
            (Option.some_inj.mp hif)
        rw [hpl] at hact
        exact ⟨hact, h1, h2⟩
      · rw [if_neg hact] at hif
        cases hif
    · rintro ⟨hact, -, -⟩
      have hsample : sampleLine name l ls.value ∈ content.label.filterMap
          (fun p => if isActive st' name p.1 then some (sampleLine name p.1 p.2.value)
            else none) :=
        List.mem_filterMap.mpr ⟨(l, ls), hm, by rw [if_pos hact]⟩
      have hany : content.label.any (fun p => isActive st' name p.1) = true :=
        List.any_eq_true.mpr ⟨(l, ls), hm, hact⟩
      rw [serializeFamilyLines, if_neg h1, if_neg h2]
      simp only [hany, if_true]
      exact List.mem_cons_of_mem _ (List.mem_cons_of_mem _ hsample)

/-- Witness for C5's amended statement: series foo (tracked at counter 7,
value 5) scraped again with the same value 5 ends at counter 8; against a
store holding counter 8 its sample line is emitted for the gauge family. -/
theorem C5_witness :
    ((lookupLS (lookupMD (updateFamily [("foo", ⟨.gauge, "", [("", ⟨.fin ⟨5, 0⟩, 7⟩)]⟩)] "foo"
        ⟨.gauge, "", [("", ⟨.fin ⟨5, 0⟩, 0⟩)]⟩) "foo").label "").unchangedCounter = 7 + 1)
    ∧ (sampleLine "foo" "" (.fin ⟨5, 0⟩) ∈ serializeFamilyLines
        [("foo", ⟨.gauge, "", [("", ⟨.fin ⟨5, 0⟩, 8⟩)]⟩)] "foo"
        ⟨.gauge, "", [("", ⟨.fin ⟨5, 0⟩, 0⟩)]⟩) := by
  have hc := C5_increment_and_emission [("foo", ⟨.gauge, "", [("", ⟨.fin ⟨5, 0⟩, 7⟩)]⟩)] "foo"
    ⟨.gauge, "", [("", ⟨.fin ⟨5, 0⟩, 0⟩)]⟩ "" ⟨.fin ⟨5, 0⟩, 0⟩ (by unfold keysNodup; decide)
    (by decide)
  refine ⟨hc.1 ⟨.gauge, "", [("", ⟨.fin ⟨5, 0⟩, 7⟩)]⟩ ⟨.fin ⟨5, 0⟩, 7⟩ rfl rfl (by decide), ?_⟩
  exact (hc.2 [("foo", ⟨.gauge, "", [("", ⟨.fin ⟨5, 0⟩, 8⟩)]⟩)] 'f' ['o', 'o'] rfl (by decide)
    (by decide)).mpr ⟨by decide, by decide, by decide⟩

/-- Characterization of a successful digit match. -/
theorem matchDigits1_eq (cs ds rest : List Char) (h : matchDigits1 cs = some (ds, rest)) :
    ds = cs.takeWhile Char.isDigit ∧ rest = cs.dropWhile Char.isDigit := by
  unfold matchDigits1 at h
  split at h
  · cases h
  · obtain ⟨h1, h2⟩ := Prod.mk.injEq .. ▸ Option.some_inj.mp h
    exact ⟨h1.symm, h2.symm⟩

/-- takeWhile and dropWhile split exactly at the first character failing
the predicate. -/
theorem takeWhile_append_stop {p : Char → Bool} :
    ∀ (xs : List Char) (y : Char) (ys : List Char), (∀ x ∈ xs, p x = true) → p y = false →
      (xs ++ y :: ys).takeWhile p = xs ∧ (xs ++ y :: ys).dropWhile p = y :: ys := by
  intro xs
  induction xs with
  | nil =>
    intro y ys _ hy
    simp [List.takeWhile_cons, List.dropWhile_cons, hy]
  | cons a t ih =>
    intro y ys hall hy
    have ha : p a = true := hall a (List.mem_cons_self a t)
    have ht := ih y ys (fun x hx => hall x (List.mem_cons_of_mem a hx)) hy
    simp [List.takeWhile_cons, List.dropWhile_cons, ha, ht.1, ht.2]

/-- The fraction matcher only consumes a prefix. -/
theorem matchFrac_suffix (cs : List Char) : (matchFrac cs).2 <:+ cs := by
  unfold matchFrac
  split
  · rename_i c r
    by_cases hc : c = '.'
    · simp only [if_pos hc]
      split
      · rename_i ds r2 heq
        obtain ⟨-, h2⟩ := matchDigits1_eq r ds r2 heq
        rw [h2]
        exact (List.dropWhile_suffix Char.isDigit).trans (List.suffix_cons c r)
      · exact List.suffix_refl _
    · simp only [if_neg hc]
      exact List.suffix_refl _
  · exact List.suffix_refl _

/-- The exponent matcher only consumes a prefix. -/
theorem matchExp_suffix (cs : List Char) : (matchExp cs).2 <:+ cs := by
  unfold matchExp
  split
  · rename_i c1 c2 r
    by_cases h1 : c1 = 'e'
    · simp only [if_pos h1]
      by_cases h2 : (c2 = '+' || c2 = '-') = true
      · simp only [if_pos h2]
        split
        · rename_i ds r2 heq
          obtain ⟨-, hd2⟩ := matchDigits1_eq r ds r2 heq
          rw [hd2]
          exact ((List.dropWhile_suffix Char.isDigit).trans (List.suffix_cons c2 r)).trans
            (List.suffix_cons c1 (c2 :: r))
        · exact List.suffix_refl _
      · simp only [if_neg h2]
        exact List.suffix_refl _
    · simp only [if_neg h1]
      exact List.suffix_refl _
  · exact List.suffix_refl _

/-- The special-value matcher only consumes a prefix. -/
theorem matchSpecial_suffix (cs : List Char) (v : GoFloat) (rest : List Char)
    (h : matchSpecial cs = some (v, rest)) : rest <:+ cs := by
  unfold matchSpecial at h
  split at h
  · rename_i c1 c2 c3 rest3
    split at h
    · obtain ⟨-, h2⟩ := Prod.mk.injEq .. ▸ Option.some_inj.mp h
      exact h2 ▸ ⟨[c1, c2, c3], rfl⟩
    · split at h
      · rename_i c4 rest4
        split at h
        · obtain ⟨-, h2⟩ := Prod.mk.injEq .. ▸ Option.some_inj.mp h
          exact h2 ▸ ⟨[c1, c2, c3, c4], rfl⟩
        · split at h
          · obtain ⟨-, h2⟩ := Prod.mk.injEq .. ▸ Option.some_inj.mp h
            exact h2 ▸ ⟨[c1, c2, c3, c4], rfl⟩
          · cases h
      · cases h
  · cases h

/-- The number matcher only consumes a prefix. -/
theorem matchNumber_suffix (neg : Bool) (cs1 : List Char) (v : GoFloat) (rest : List Char)
    (h : matchNumber neg cs1 = some (v, rest)) : rest <:+ cs1 := by
  unfold matchNumber at h
  split at h
  · cases h
  · rename_i ip cs2 heq
    obtain ⟨-, h2⟩ := Prod.mk.injEq .. ▸ Option.some_inj.mp h
    obtain ⟨-, hd2⟩ := matchDigits1_eq cs1 ip cs2 heq
    calc rest = (matchExp (matchFrac cs2).2).2 := h2.symm
      _ <:+ (matchFrac cs2).2 := matchExp_suffix _
      _ <:+ cs2 := matchFrac_suffix _
      _ = cs1.dropWhile Char.isDigit := hd2
      _ <:+ cs1 := List.dropWhile_suffix _

/-- The value matcher only consumes a prefix: the unconsumed rest is a
suffix of the input. -/
theorem matchValue_suffix (cs : List Char) (v : GoFloat) (rest : List Char)
    (h : matchValue cs = some (v, rest)) : rest <:+ cs := by
  unfold matchValue at h
  split at h
  · rename_i p heq
    exact matchSpecial_suffix cs v rest (by rw [heq, Option.some_inj.mp h])
  · split at h
    · rename_i ch r hns
      by_cases hc : ch = '-'
      · rw [if_pos hc] at h
        exact (matchNumber_suffix true r v rest h).trans (List.suffix_cons ch r)
      · rw [if_neg hc] at h
        exact matchNumber_suffix false (ch :: r) v rest h
    · cases h

/-- takeWhile and dropWhile ignore anything appended after a character that
fails the predicate. -/
theorem takeWhile_dropWhile_append {p : Char → Bool} (y : Char) (hy : p y = false) :
    ∀ (xs r : List Char),
      (xs ++ y :: r).takeWhile p = xs.takeWhile p
      ∧ (xs ++ y :: r).dropWhile p = xs.dropWhile p ++ y :: r := by
  intro xs
  induction xs with
  | nil =>
    intro r
    simp [List.takeWhile_cons, List.dropWhile_cons, hy]
  | cons a t ih =>
    intro r
    by_cases ha : p a = true
    · simp [List.takeWhile_cons, List.dropWhile_cons, ha, (ih r).1, (ih r).2]
    · have ha' : p a = false := by
        revert ha
        cases p a <;> simp
      simp [List.takeWhile_cons, List.dropWhile_cons, ha']

/-- The digit matcher ignores anything appended after a space. -/
theorem matchDigits1_append (xs r : List Char) :
    matchDigits1 (xs ++ ' ' :: r)
      = (matchDigits1 xs).map (fun q => (q.1, q.2 ++ ' ' :: r)) := by
  have h := takeWhile_dropWhile_append (p := Char.isDigit) ' ' (by decide) xs r
  unfold matchDigits1
  rw [h.1, h.2]
  by_cases he : (xs.takeWhile Char.isDigit).isEmpty = true
  · simp [he]
  · simp [he]

/-- The fraction matcher ignores anything appended after a space. -/
theorem matchFrac_append (xs r : List Char) :
    matchFrac (xs ++ ' ' :: r) = ((matchFrac xs).1, (matchFrac xs).2 ++ ' ' :: r) := by
  cases xs with
  | nil =>
    have hd : ¬(' ' = '.') := by decide
    simp [matchFrac, hd]
  | cons a t =>
    by_cases ha : a = '.'
    · simp only [List.cons_append, matchFrac, if_pos ha, matchDigits1_append]
      cases hmd : matchDigits1 t with
      | none => simp
      | some q => simp
    · simp [matchFrac, ha]

/-- The exponent matcher ignores anything appended after a space. -/
theorem matchExp_append (xs r : List Char) :
    matchExp (xs ++ ' ' :: r) = ((matchExp xs).1, (matchExp xs).2 ++ ' ' :: r) := by
  match xs with
  | [] =>
    have hd : ¬(' ' = 'e') := by decide
    cases r <;> simp [matchExp, hd]
  | [a] =>
    by_cases ha : a = 'e'
    · have hd : (' ' = '+' || ' ' = '-') = false := by decide
      simp [matchExp, ha, hd]
    · simp [matchExp, ha]
  | a :: b :: t =>
    by_cases ha : a = 'e'
    · by_cases hb : (b = '+' || b = '-') = true
      · simp only [List.cons_append, matchExp, if_pos ha, if_pos hb, matchDigits1_append]
        cases hmd : matchDigits1 t with
        | none => simp
        | some q => simp
      · have hb' : (b = '+' || b = '-') = false := by
          revert hb
          cases (b = '+' || b = '-') <;> simp
        simp [matchExp, ha, hb']
    · simp [matchExp, ha]

/-- The number matcher ignores anything appended after a space. -/
theorem matchNumber_append (neg : Bool) (xs r : List Char) :
    matchNumber neg (xs ++ ' ' :: r)
      = (matchNumber neg xs).map (fun q => (q.1, q.2 ++ ' ' :: r)) := by
  unfold matchNumber
  rw [matchDigits1_append]
  cases hmd : matchDigits1 xs with
  | none => simp
  | some q =>
    obtain ⟨ip, cs2⟩ := q
    have hm : Option.map (fun q => (q.1, q.2 ++ ' ' :: r)) (some (ip, cs2))
        = some (ip, cs2 ++ ' ' :: r) := rfl
    rw [hm]
    simp only []
    rw [matchFrac_append, matchExp_append]
    simp

/-- The special-value matcher ignores anything appended after a space (no
pattern character is a space). -/
theorem matchSpecial_append (xs r : List Char) :
    matchSpecial (xs ++ ' ' :: r)
      = (matchSpecial xs).map (fun q => (q.1, q.2 ++ ' ' :: r)) := by
  have hN : ¬(' ' = 'N') := by decide
  have ha : ¬(' ' = 'a') := by decide
  have hn : ¬(' ' = 'n') := by decide
  have hf : ¬(' ' = 'f') := by decide
  match xs with
  | [] => cases r with
    | nil => simp [matchSpecial]
    | cons b t => cases t <;> simp [matchSpecial, hN] <;> (split <;> rfl)
  | [a] => cases r <;> simp [matchSpecial, ha, hN] <;> (split <;> rfl)
  | [a, b] =>
    by_cases hab : a = 'N' ∧ b = 'a'
    · simp [matchSpecial, hab.1, hab.2, hN, hn] <;> (split <;> rfl)
    · have : ¬(a = 'N' ∧ b = 'a' ∧ ' ' = 'N') := fun hx => hN hx.2.2
      cases r <;> simp [matchSpecial, this, hn] <;> (split <;> rfl)
  | a :: b :: c :: t =>
    by_cases hNaN : a = 'N' ∧ b = 'a' ∧ c = 'N'
    · simp [matchSpecial, hNaN]
    · cases t with
      | nil => simp [matchSpecial, hNaN, hf]
      | cons d u =>
        by_cases hpos : a = '+' ∧ b = 'I' ∧ c = 'n' ∧ d = 'f'
        · simp [matchSpecial, hNaN, hpos]
        · by_cases hneg : a = '-' ∧ b = 'I' ∧ c = 'n' ∧ d = 'f'
          · simp [matchSpecial, hNaN, hpos, hneg]
          · simp [matchSpecial, hNaN, hpos, hneg]

/-- The value matcher ignores anything appended after a space: appending a
space-led suffix changes neither whether it matches nor what it consumes,
only carrying the suffix along in the unconsumed rest. -/
theorem matchValue_append (xs r : List Char) :
    matchValue (xs ++ ' ' :: r) = (matchValue xs).map (fun q => (q.1, q.2 ++ ' ' :: r)) := by
  unfold matchValue
  rw [matchSpecial_append]
  cases hms : matchSpecial xs with
  | some q => simp
  | none =>
    simp only [Option.map_none']
    cases xs with
    | nil =>
      have hd : ¬Char.isDigit ' ' = true := by decide
      have hm : ¬(' ' = '-') := by decide
      simp [matchNumber, matchDigits1, List.takeWhile_cons, hd, hm]
    | cons a t =>
      by_cases ha : a = '-'
      · simp only [List.cons_append, if_pos ha, matchNumber_append]
      · simp only [List.cons_append, if_neg ha]
        rw [show (a :: (t ++ ' ' :: r)) = ((a :: t) ++ ' ' :: r) from rfl, matchNumber_append]

/-- The sample-line regex evaluated on a general claim-shaped line
`name[\x7blabel\x7d] value [timestamp]`, with or without the optional label
block and the optional timestamp: for a valid metric name, a label text
free of closing braces, a space-free value field and a well-formed
timestamp, the line matches exactly when the value alternation consumes the
whole value field, and it then captures the name, the label text (empty
without a label block) and the value the field denotes. -/
theorem lineMatch_general (name lab vs ts : String) (withLab withTs : Bool)
    (c : Char) (cs : List Char)
    (hdata : name.data = c :: cs) (hstart : isNameStart c = true)
    (hchars : ∀ x ∈ cs, isNameChar x = true)
    (hlab : rbrace ∉ lab.data) (hnospace : ' ' ∉ vs.data)
    (hts : tsOk ts.data = true) :
    lineMatch (name ++ (if withLab then "\x7b" ++ lab ++ "\x7d" else "") ++ " " ++ vs
        ++ (if withTs then " " ++ ts else ""))
      = Option.map (fun v => (name, (if withLab then lab else ""), v)) (matchValueFull vs) := by
  have hspd : (" " : String).data = [' '] := by decide
  have hlbd : ("\x7b" : String).data = [lbrace] := by decide
  have hrbd : ("\x7d" : String).data = [rbrace] := by decide
  have hemp : String.mk ([] : List Char) = "" := rfl
  have hmk : String.mk (c :: cs) = name := by rw [← hdata]
  have htsd : (if withTs then " " ++ ts else "").data
      = (if withTs then ' ' :: ts.data else []) := by
    cases withTs <;> simp [String.data_append, hspd]
  have htail : ∀ lr : String,
      (match matchValue (vs.data ++ (if withTs then ' ' :: ts.data else [])) with
        | none => none
        | some (v, r4) =>
          match r4 with
          | [] => some (name, lr, v)
          | c4 :: r5 =>
            if c4 = ' ' then if tsOk r5 = true then some (name, lr, v) else none
            else none)
        = Option.map (fun v => (name, lr, v)) (matchValueFull vs) := by
    intro lr
    cases withTs with
    | false =>
      rw [if_neg (by simp), List.append_nil]
      rcases hmv : matchValue vs.data with - | ⟨v, rest⟩
      · simp [matchValueFull, hmv]
      · rcases rest with - | ⟨c4, r5⟩
        · simp [matchValueFull, hmv]
        · have hc4 : c4 ∈ vs.data :=
            (matchValue_suffix vs.data v (c4 :: r5) hmv).subset (List.mem_cons_self c4 r5)
          have hc4ne : ¬(c4 = ' ') := fun he => hnospace (he ▸ hc4)
          simp [matchValueFull, hmv, hc4ne]
    | true =>
      rw [if_pos rfl, matchValue_append]
      rcases hmv : matchValue vs.data with - | ⟨v, rest⟩
      · simp [matchValueFull, hmv]
      · rcases rest with - | ⟨c4, r5⟩
        · simp [matchValueFull, hmv, hts]
        · have hc4 : c4 ∈ vs.data :=
            (matchValue_suffix vs.data v (c4 :: r5) hmv).subset (List.mem_cons_self c4 r5)
          have hc4ne : ¬(c4 = ' ') := fun he => hnospace (he ▸ hc4)
          simp [matchValueFull, hmv, hc4ne]
  cases withLab with
  | false =>
    have hfull : (name ++ (if (false : Bool) then "\x7b" ++ lab ++ "\x7d" else "") ++ " " ++ vs
        ++ (if withTs then " " ++ ts else "")).data
        = c :: (cs ++ ' ' :: (vs.data ++ (if withTs then ' ' :: ts.data else []))) := by
      simp [String.data_append, hdata, hspd, htsd]
    have htw := takeWhile_append_stop cs ' '
      (vs.data ++ (if withTs then ' ' :: ts.data else [])) hchars (by decide)
    have hname : matchName (name ++ (if (false : Bool) then "\x7b" ++ lab ++ "\x7d" else "")
        ++ " " ++ vs ++ (if withTs then " " ++ ts else "")).data
        = some (c :: cs, ' ' :: (vs.data ++ (if withTs then ' ' :: ts.data else []))) := by
      rw [hfull]
      simp [matchName, hstart, htw.1, htw.2]
    have hsp : ¬(' ' = lbrace) := by decide
    have hbrace : matchBraceOpt (' ' :: (vs.data ++ (if withTs then ' ' :: ts.data else [])))
        = some ([], ' ' :: (vs.data ++ (if withTs then ' ' :: ts.data else []))) := by
      simp [matchBraceOpt, hsp]
    unfold lineMatch
    rw [hname]
    simp only []
    rw [hbrace]
    simp only [hmk, hemp, if_neg (by simp : ¬((false : Bool) = true))]
    exact htail ""
  | true =>
    have hmkl : String.mk lab.data = lab := rfl
    have hfull : (name ++ (if (true : Bool) then "\x7b" ++ lab ++ "\x7d" else "") ++ " " ++ vs
        ++ (if withTs then " " ++ ts else "")).data
        = c :: (cs ++ lbrace ::
            (lab.data ++ rbrace :: ' ' :: (vs.data ++ (if withTs then ' ' :: ts.data else [])))) := by
      simp [String.data_append, hdata, hspd, hlbd, hrbd, htsd]
      exact ⟨by decide, by decide⟩
    have htw := takeWhile_append_stop cs lbrace
      (lab.data ++ rbrace :: ' ' :: (vs.data ++ (if withTs then ' ' :: ts.data else [])))
      hchars (by decide)
    have hname : matchName (name ++ (if (true : Bool) then "\x7b" ++ lab ++ "\x7d" else "")
        ++ " " ++ vs ++ (if withTs then " " ++ ts else "")).data
        = some (c :: cs, lbrace ::
            (lab.data ++ rbrace :: ' ' :: (vs.data ++ (if withTs then ' ' :: ts.data else [])))) := by
      rw [hfull]
      simp [matchName, hstart, htw.1, htw.2]
    have hall : ∀ x ∈ lab.data, (fun y => decide ¬(y = rbrace)) x = true := by
      intro x hx
      simp only [decide_eq_true_eq]
      exact fun he => hlab (he ▸ hx)
    have hbtw := takeWhile_append_stop (p := fun y => decide ¬(y = rbrace)) lab.data rbrace
      (' ' :: (vs.data ++ (if withTs then ' ' :: ts.data else []))) hall (by simp)
    have hbrace : matchBraceOpt (lbrace ::
        (lab.data ++ rbrace :: ' ' :: (vs.data ++ (if withTs then ' ' :: ts.data else []))))
        = some (lab.data, ' ' :: (vs.data ++ (if withTs then ' ' :: ts.data else []))) := by
      simp only [matchBraceOpt, if_pos rfl]
      rw [show (fun y => (y ≠ rbrace : Bool)) = (fun y => decide ¬(y = rbrace)) from rfl,
        hbtw.1, hbtw.2]
      simp
    unfold lineMatch
    rw [hname]
    simp only []
    rw [hbrace]
    simp only [hmk, hmkl, if_pos rfl]
    exact htail lab

/-- A line whose first character is not `#` matches neither the TYPE nor
the HELP pattern. -/
theorem hash_patterns_none (s : String) (c : Char) (cs : List Char)
    (hdata : s.data = c :: cs) (hc : ¬(c = '#')) :
    typeMatch s = none ∧ helpMatch s = none := by
  constructor
  · unfold typeMatch
    rw [hdata]
    unfold dropPrefixChars
    rw [if_neg hc]
  · unfold helpMatch
    rw [hdata]
    unfold dropPrefixChars
    rw [if_neg hc]

/-- A line matching none of the three patterns leaves the parsed data
untouched. -/
theorem processLine_id (d : List (String × MetricData)) (s : String)
    (h1 : lineMatch s = none) (h2 : typeMatch s = none) (h3 : helpMatch s = none) :
    processLine d s = d := by
  simp [processLine, h1, h2, h3]

/-- Counterexample to C6 as stated: the line `foo 1e5` has the sample form
with value field `1e5`, which is standard exponential notation; the claim
says the parser then creates/updates the series.  The code's value regex
requires a sign after the exponent marker, so the line matches nothing and
parsing it yields no family and no series at all. -/
theorem C6_counterexample :
    lineMatch "foo 1e5" = none ∧ parseBody ["foo 1e5"] = [] := by
  decide

/-- C6 (amended): for a claim-shaped line `name[\x7blabel\x7d] value
[timestamp]` — optional label block (label text free of closing braces),
valid metric name, space-free value field, optional well-formed timestamp —
the line creates or updates the named series (under the line's label text,
empty without a label block) with the parsed value exactly when the value
field lies in the code's value grammar `[+-]Inf | NaN |
-?digits(.digits)?(e[+-]digits)?` (sign mandatory on Inf and after the
exponent marker, no leading plus) AND the parsed magnitude does not
overflow float64 (strconv.ParseFloat's ErrRange, main.go:85: magnitude
below 2^1024 - 2^970); any other such line — grammar failure or overflow —
is dropped without creating or updating any family or series entry. -/
theorem C6_value_grammar (name lab vs ts : String) (withLab withTs : Bool)
    (c : Char) (cs : List Char) (d : List (String × MetricData))
    (hdata : name.data = c :: cs) (hstart : isNameStart c = true)
    (hchars : ∀ x ∈ cs, isNameChar x = true)
    (hlab : rbrace ∉ lab.data) (hnospace : ' ' ∉ vs.data)
    (hts : tsOk ts.data = true) :
    (∀ v, parseValueString vs = some v →
        processLine d (name ++ (if withLab then "\x7b" ++ lab ++ "\x7d" else "") ++ " " ++ vs
            ++ (if withTs then " " ++ ts else ""))
          = ainsert d name { lookupMD d name with
              label := ainsert (lookupMD d name).label (if withLab then lab else "")
                { lookupLS (lookupMD d name).label (if withLab then lab else "") with
                    value := v } })
    ∧ (parseValueString vs = none →
        processLine d (name ++ (if withLab then "\x7b" ++ lab ++ "\x7d" else "") ++ " " ++ vs
            ++ (if withTs then " " ++ ts else "")) = d) := by
  have hlm := lineMatch_general name lab vs ts withLab withTs c cs
    hdata hstart hchars hlab hnospace hts
  have hfull : (name ++ (if withLab then "\x7b" ++ lab ++ "\x7d" else "") ++ " " ++ vs
      ++ (if withTs then " " ++ ts else "")).data
      = c :: (cs ++ ((if withLab then "\x7b" ++ lab ++ "\x7d" else "").data
          ++ ' ' :: (vs.data ++ (if withTs then " " ++ ts else "").data))) := by
    have hspd : (" " : String).data = [' '] := by decide
    simp [String.data_append, hdata, hspd]
  have hch : ¬(c = '#') := by
    intro he
    rw [he] at hstart
    exact absurd hstart (by decide)
  have hpat := hash_patterns_none _ c _ hfull hch
  constructor
  · intro v hv
    have hmv : matchValueFull vs = some v ∧ parseFloatOk v = true := by
      unfold parseValueString at hv
      rcases hm : matchValueFull vs with - | ⟨v0⟩
      · rw [hm] at hv
        exact absurd hv (by simp)
      · rw [hm] at hv
        simp only [] at hv
        by_cases hp : parseFloatOk v0 = true
        · rw [if_pos hp] at hv
          have hvv : v0 = v := by injection hv
          subst hvv
          exact ⟨rfl, hp⟩
        · rw [if_neg hp] at hv
          exact absurd hv (by simp)
    rw [hmv.1] at hlm
    simp [processLine, hlm, hmv.2, hpat.1, hpat.2]
  · intro hv
    unfold parseValueString at hv
    rcases hm : matchValueFull vs with - | ⟨v0⟩
    · rw [hm] at hlm
      exact processLine_id _ _ hlm hpat.1 hpat.2
    · rw [hm] at hv hlm
      simp only [] at hv
      have hp : ¬(parseFloatOk v0 = true) := by
        intro hp
        rw [if_pos hp] at hv
        exact absurd hv (by simp)
      simp [processLine, hlm, hp, hpat.1, hpat.2]

/-- Witness for C6's amended statement: the labeled, timestamped line
`foo\x7ba="b"\x7d 27 123` creates the series `foo` with label `a="b"` and
value 27; the line `foo 1e5` fails the grammar and is dropped; the line
`foo 2e+308` passes the grammar but overflows float64 and is dropped. -/
theorem C6_witness :
    processLine [] ("foo" ++ (if true then "\x7b" ++ "a=\"b\"" ++ "\x7d" else "") ++ " " ++ "27"
        ++ (if true then " " ++ "123" else ""))
      = ainsert [] "foo" { lookupMD [] "foo" with
          label := ainsert (lookupMD [] "foo").label (if true then "a=\"b\"" else "")
            { lookupLS (lookupMD [] "foo").label (if true then "a=\"b\"" else "") with
                value := .fin ⟨27, 0⟩ } }
    ∧ processLine [] ("foo" ++ (if false then "\x7b" ++ "" ++ "\x7d" else "") ++ " " ++ "1e5"
        ++ (if false then " " ++ "0" else "")) = []
    ∧ processLine [] ("foo" ++ (if false then "\x7b" ++ "" ++ "\x7d" else "") ++ " " ++ "2e+308"
        ++ (if false then " " ++ "0" else "")) = [] := by
  refine ⟨?_, ?_, ?_⟩
  · exact (C6_value_grammar "foo" "a=\"b\"" "27" "123" true true 'f' ['o', 'o'] []
      rfl (by decide) (by decide) (by decide) (by decide) (by decide)).1
      (.fin ⟨27, 0⟩) (by decide)
  · exact (C6_value_grammar "foo" "" "1e5" "0" false false 'f' ['o', 'o'] []
      rfl (by decide) (by decide) (by decide) (by decide) (by decide)).2 (by decide)
  · exact (C6_value_grammar "foo" "" "2e+308" "0" false false 'f' ['o', 'o'] []
      rfl (by decide) (by decide) (by decide) (by decide) (by decide)).2
      (by set_option maxRecDepth 2048 in decide)

end FPP
